import Mathlib

/-!
Verification of the Scoring & Leaderboard Engine of the AI-Website
competition backend (FastAPI + Supabase), shallowly embedded in Lean.

Sources embedded:
  backend/phase5_10_router.py  (task submissions, judge scoring,
                                leaderboard, snapshots)
  backend/strategic_router.py  (score appeals)

Modelling conventions:
  - Ids (competitions, tasks, teams, users, criteria, appeals) are Nat.
  - Timestamps are Nat.  The source stores ISO-8601 UTC strings and
    compares them lexicographically, which for same-format strings
    agrees with chronological order; the "9999" sentinel used in the
    leaderboard sort is above every representable timestamp, so it is
    modelled as the top element of (Option Nat) ordering (none = +inf).
  - Numeric scores are exact rationals.  The source uses Python floats;
    all claims are settled at values where float arithmetic is exact.
  - Python round(x, 2) is banker's rounding (half to even), modelled by
    round2 below.
  - Status fields are the source's literal strings ("open", "locked",
    "submitted", "pending", "adjusted", ...).
  - Supabase tables are lists of rows; upsert-on-conflict replaces the
    first row with the conflicting key (the real tables carry a unique
    constraint on that key) and appends otherwise.
  - External effects (blob storage, signed URLs, the audit log, HTTP
    transport) are outside the persisted state the claims speak about
    and are not modelled; the file hash is taken as an input rather
    than recomputed from bytes.
-/

namespace AIWebsite

-- ===========================================================
-- Rounding (Python round(x, 2))
-- ===========================================================

/-- Round a rational to the nearest integer, ties to even
(Python's `round` on exactly representable values). -/
def roundHalfEven (q : ℚ) : ℤ :=
  let n : ℤ := ⌊q⌋
  let r : ℚ := q - n
  if r < 1/2 then n
  else if 1/2 < r then n + 1
  else if n % 2 = 0 then n else n + 1

/-- `round(x, 2)` of the source: round to two decimal places. -/
def round2 (q : ℚ) : ℚ := (roundHalfEven (q * 100) : ℚ) / 100

-- ===========================================================
-- Data model (rows of the Supabase tables used by the engine)
-- ===========================================================

structure Competition where
  id : ℕ
  title : String
  current_level : ℕ
  submissions_locked : Bool
  level_2_deadline : Option ℕ
  level_3_deadline : Option ℕ
  level_4_deadline : Option ℕ
  results_published : Bool
  deriving Repr, DecidableEq

/-- `competition.get(f"level_{task_level}_deadline")`: the per-level
deadline column, `none` for levels without such a column. -/
def Competition.levelDeadline (c : Competition) (level : ℕ) : Option ℕ :=
  if level = 2 then c.level_2_deadline
  else if level = 3 then c.level_3_deadline
  else if level = 4 then c.level_4_deadline
  else none

structure Task where
  id : ℕ
  competition_id : ℕ
  level : ℕ
  deadline : Option ℕ
  allowed_file_types : List String
  max_file_size_mb : Option ℕ
  is_active : Bool
  deriving Repr, DecidableEq

structure Team where
  id : ℕ
  competition_id : ℕ
  team_name : String
  deriving Repr, DecidableEq

structure TeamMember where
  team_id : ℕ
  user_id : ℕ
  deriving Repr, DecidableEq

structure TaskSubmission where
  id : ℕ
  competition_id : ℕ
  team_id : ℕ
  task_id : ℕ
  level : ℕ
  file_name : String
  file_size : ℕ
  file_hash : String
  submitted_by : ℕ
  submitted_at : ℕ
  status : String
  declared_duration_seconds : Option ℕ
  deriving Repr, DecidableEq

structure ScoringCriterion where
  id : ℕ
  weight : ℚ
  applies_to_levels : List ℕ
  is_active : Bool
  deriving Repr, DecidableEq

structure TaskScoreEntry where
  task_submission_id : ℕ
  criterion_id : ℕ
  judge_id : ℕ
  score : ℚ
  feedback : String
  deriving Repr, DecidableEq

structure TaskSubmissionScore where
  task_submission_id : ℕ
  judge_id : ℕ
  weighted_total : ℚ
  overall_feedback : String
  is_final : Bool
  scored_at : ℕ
  deriving Repr, DecidableEq

structure JudgeAssignmentRow where
  competition_id : ℕ
  judge_id : ℕ
  is_active : Bool
  deriving Repr, DecidableEq

structure LeaderboardSnapshot where
  competition_id : ℕ
  team_id : ℕ
  team_name : String
  final_rank : ℕ
  level_2_score : ℚ
  level_3_score : ℚ
  level_4_score : ℚ
  cumulative_score : ℚ
  last_submission_at : Option ℕ
  deriving Repr, DecidableEq

structure ScoreAppeal where
  id : ℕ
  submission_id : ℕ
  team_id : ℕ
  competition_id : ℕ
  appellant_id : ℕ
  original_score : Option ℚ
  appeal_reason : String
  appeal_status : String
  review_notes : String
  reviewed_by : Option ℕ
  reviewed_at : Option ℕ
  adjusted_score : Option ℚ
  deriving Repr, DecidableEq

/-- The shared relational store: one list of rows per table. -/
structure DB where
  competitions : List Competition
  tasks : List Task
  teams : List Team
  team_members : List TeamMember
  task_submissions : List TaskSubmission
  scoring_criteria : List ScoringCriterion
  task_score_entries : List TaskScoreEntry
  task_submission_scores : List TaskSubmissionScore
  judge_assignments : List JudgeAssignmentRow
  leaderboard_snapshots : List LeaderboardSnapshot
  score_appeals : List ScoreAppeal
  next_submission_id : ℕ
  next_appeal_id : ℕ
  deriving Repr, DecidableEq

/-- An HTTPException raised by an endpoint (status code and detail). -/
structure HErr where
  code : ℕ
  detail : String
  deriving Repr, DecidableEq

/-- Upsert with an `on_conflict` key: replace the first row matching the
key, append when no row matches. -/
def upsertBy {α : Type} (key : α → Bool) (new : α) : List α → List α
  | [] => [new]
  | x :: xs => if key x then new :: xs else x :: upsertBy key new xs

-- ===========================================================
-- Gating evaluator
-- (phase5_10_router.get_competition_tasks_with_status, lines 148-179)
-- ===========================================================

/-- The submission-status decision of `get_competition_tasks_with_status`
for one task: exactly the if/elif chain of lines 154-172.  `submission`
is the current team's row for the task, if any. -/
def task_submission_status (competition : Competition) (task : Task)
    (submission : Option TaskSubmission) (now : ℕ) : String :=
  match submission with
  | some s => if s.status = "locked" then "locked" else "submitted"
  | none =>
    if competition.submissions_locked then "locked"
    else if task.level > competition.current_level then "level_not_active"
    else
      match task.deadline.or (competition.levelDeadline task.level) with
      | some effective_deadline =>
          if effective_deadline < now then "past_deadline" else "open"
      | none => "open"

/-- `can_submit` flag of the same endpoint (line 178): status == "open". -/
def can_submit (competition : Competition) (task : Task)
    (submission : Option TaskSubmission) (now : ℕ) : Bool :=
  task_submission_status competition task submission now = "open"

/-- Modelled from the spec's words (section 4.1), for comparison with the
implementation: the claimed strict priority order with
`submissions_locked` first. -/
def specGateStatus (competition : Competition) (task : Task)
    (submission : Option TaskSubmission) (now : ℕ) : String :=
  if competition.submissions_locked then "locked"
  else
    match submission with
    | some s => if s.status = "locked" then "locked" else "submitted"
    | none =>
      if task.level > competition.current_level then "level_not_active"
      else
        match task.deadline.or (competition.levelDeadline task.level) with
        | some effective_deadline =>
            if effective_deadline < now then "past_deadline" else "open"
        | none => "open"

/-- First-match evaluation of an ordered rule list (used to state in
what priority order the gate's rules actually fire). -/
def firstMatch : List (Bool × String) → String → String
  | [], dflt => dflt
  | (cond, st) :: rest, dflt => if cond then st else firstMatch rest dflt

/-- The effective deadline of a task: its own deadline, else the
deadline column of its level. -/
def effectiveDeadline (competition : Competition) (task : Task) : Option ℕ :=
  task.deadline.or (competition.levelDeadline task.level)

-- Concrete fixtures for the gate counterexample.

def gateCexCompetition : Competition :=
  { id := 1, title := "C", current_level := 1, submissions_locked := true
    level_2_deadline := none, level_3_deadline := none
    level_4_deadline := none, results_published := false }

def gateCexTask : Task :=
  { id := 10, competition_id := 1, level := 2, deadline := none
    allowed_file_types := ["pdf"], max_file_size_mb := some 50
    is_active := true }

def gateCexSubmission : TaskSubmission :=
  { id := 100, competition_id := 1, team_id := 7, task_id := 10, level := 2
    file_name := "a.pdf", file_size := 1, file_hash := "h"
    submitted_by := 3, submitted_at := 5, status := "submitted"
    declared_duration_seconds := none }

-- ===========================================================
-- Scoring ledger (phase5_10_router.submit_judge_score, lines 737-833)
-- ===========================================================

/-- Pydantic `ScoreEntry`: one criterion score in a judge's payload. -/
structure ScoreEntryInput where
  criterion_id : ℕ
  score : ℚ
  feedback : String
  deriving Repr, DecidableEq

/-- Pydantic `JudgeScoreSubmit`: the body of the score endpoint. -/
structure JudgeScoreSubmit where
  scores : List ScoreEntryInput
  overall_feedback : String
  is_final : Bool
  deriving Repr, DecidableEq

/-- The validate-and-save loop of `submit_judge_score` (lines 783-806):
processes the payload entries in order, accumulating the weighted total
and upserting one `task_score_entries` row per applicable entry.  On a
validation failure the rows upserted so far stay in the table and the
error is returned (there is no transaction). -/
def scoreLoop (criteria : List ScoringCriterion) (level submission_id judge_id : ℕ) :
    List ScoreEntryInput → ℚ → List TaskScoreEntry →
    List TaskScoreEntry × Except HErr ℚ
  | [], weighted_total, entries => (entries, .ok weighted_total)
  | e :: rest, weighted_total, entries =>
    match criteria.find? (fun c => c.id = e.criterion_id) with
    | none => (entries, .error ⟨400, "Invalid criterion"⟩)
    | some criterion =>
      if criterion.applies_to_levels.contains level = false then
        scoreLoop criteria level submission_id judge_id rest weighted_total entries
      else if e.score < 0 ∨ e.score > 100 then
        (entries, .error ⟨400, "Score must be between 0-100"⟩)
      else
        scoreLoop criteria level submission_id judge_id rest
          (weighted_total + e.score * (criterion.weight / 100))
          (upsertBy
            (fun r => r.task_submission_id = submission_id ∧
              r.criterion_id = e.criterion_id ∧ r.judge_id = judge_id)
            { task_submission_id := submission_id, criterion_id := e.criterion_id
              judge_id := judge_id, score := e.score, feedback := e.feedback }
            entries)

/-- `submit_judge_score`: validates the judge's assignment, runs the
entry loop, and on success upserts the `task_submission_scores` row with
the freshly computed `round(weighted_total, 2)` and the payload's
`is_final`.  Returns the new database state together with the outcome
(the weighted total on success). -/
def submit_judge_score (db : DB) (submission_id judge_id : ℕ)
    (score_data : JudgeScoreSubmit) (now : ℕ) : DB × Except HErr ℚ :=
  match db.task_submissions.find? (fun s => s.id = submission_id) with
  | none => (db, .error ⟨404, "Submission not found"⟩)
  | some sub =>
    match db.judge_assignments.find? (fun a =>
        a.competition_id = sub.competition_id ∧ a.judge_id = judge_id ∧
        a.is_active = true) with
    | none => (db, .error ⟨403, "You are not assigned as judge for this competition"⟩)
    | some _ =>
      let active_criteria := db.scoring_criteria.filter (fun c => c.is_active)
      match scoreLoop active_criteria sub.level submission_id judge_id
          score_data.scores 0 db.task_score_entries with
      | (entries1, .error e) =>
          ({ db with task_score_entries := entries1 }, .error e)
      | (entries1, .ok weighted_total) =>
          let row : TaskSubmissionScore :=
            { task_submission_id := submission_id, judge_id := judge_id
              weighted_total := round2 weighted_total
              overall_feedback := score_data.overall_feedback
              is_final := score_data.is_final, scored_at := now }
          ({ db with
              task_score_entries := entries1
              task_submission_scores :=
                upsertBy (fun r => r.task_submission_id = submission_id ∧
                    r.judge_id = judge_id) row db.task_submission_scores },
            .ok (round2 weighted_total))

/-- The weighted total actually contributed by one call's payload: the
sum, over the call's entries whose (active) criterion applies to the
level, of score x weight / 100. -/
def call_weighted_sum (criteria : List ScoringCriterion) (level : ℕ)
    (scores : List ScoreEntryInput) : ℚ :=
  (scores.map (fun e =>
    match criteria.find? (fun c => c.id = e.criterion_id) with
    | some c => if c.applies_to_levels.contains level then e.score * (c.weight / 100) else 0
    | none => 0)).sum

/-- Modelled from the spec's words (section 4.3), for comparison with the
implementation: the weighted total recomputed from all current
`task_score_entries` rows of the (submission, judge) pair whose active
criterion applies to the level. -/
def spec_weighted_total (db : DB) (submission_id judge_id level : ℕ) : ℚ :=
  round2 (((db.task_score_entries.filter (fun en =>
      en.task_submission_id = submission_id ∧ en.judge_id = judge_id ∧
      ((db.scoring_criteria.filter (fun c => c.is_active)).find?
          (fun c => c.id = en.criterion_id)).any
        (fun c => c.applies_to_levels.contains level))).map (fun en =>
      en.score *
        (((((db.scoring_criteria.filter (fun c => c.is_active)).find?
            (fun c => c.id = en.criterion_id)).map
            (fun c => c.weight)).getD 0) / 100))).sum)

-- ===========================================================
-- Submission store (phase5_10_router.submit_task_file, lines 236-433,
-- and lock_task_submission, lines 482-510)
-- ===========================================================

/-- Resolution of the caller's team: the first `team_members` row of the
user whose joined team belongs to the competition. -/
def find_user_team (db : DB) (competition_id user_id : ℕ) : Option ℕ :=
  ((db.team_members.filter (fun tm => tm.user_id = user_id)).find? (fun tm =>
      (db.teams.find? (fun t => t.id = tm.team_id)).any
        (fun t => t.competition_id = competition_id))).map (fun tm => tm.team_id)

/-- `submit_task_file`: the gate checks in source order (locked
competition, inactive level, deadline, team membership, locked existing
submission, file type, file size), then the single-row upsert for
(task, team): update in place when a row exists, insert with a fresh id
otherwise.  The file extension is passed explicitly (the source derives
it from the file name) and the hash is taken as input. -/
def submit_task_file (db : DB) (task_id user_id : ℕ)
    (file_name file_ext : String) (file_size : ℕ) (file_hash : String)
    (declared_duration_seconds : Option ℕ) (now : ℕ) :
    DB × Except HErr TaskSubmission :=
  match db.tasks.find? (fun t => t.id = task_id) with
  | none => (db, .error ⟨404, "Task not found"⟩)
  | some task =>
    if task.is_active = false then (db, .error ⟨400, "Task is not active"⟩)
    else match db.competitions.find? (fun c => c.id = task.competition_id) with
    | none => (db, .error ⟨404, "Competition not found"⟩)
    | some competition =>
      if competition.submissions_locked then
        (db, .error ⟨403, "Competition submissions are locked"⟩)
      else if task.level > competition.current_level then
        (db, .error ⟨403, "Level is not yet active"⟩)
      else if (effectiveDeadline competition task).any (fun d => d < now) then
        (db, .error ⟨403, "Task deadline has passed"⟩)
      else match find_user_team db task.competition_id user_id with
      | none => (db, .error ⟨403, "You are not part of a team in this competition"⟩)
      | some user_team_id =>
        let existing := db.task_submissions.find?
          (fun s => s.task_id = task_id ∧ s.team_id = user_team_id)
        if existing.any (fun s => s.status = "locked") then
          (db, .error ⟨403, "Your submission is locked and cannot be modified"⟩)
        else if task.allowed_file_types.contains file_ext = false then
          (db, .error ⟨400, "Invalid file type"⟩)
        else
          let max_mb := match task.max_file_size_mb with
            | some m => if m = 0 then 50 else m
            | none => 50
          if file_size > max_mb * 1024 * 1024 then
            (db, .error ⟨413, "File size exceeds limit"⟩)
          else
            match existing with
            | some s0 =>
              let row : TaskSubmission :=
                { id := s0.id, competition_id := task.competition_id
                  team_id := user_team_id, task_id := task_id
                  level := task.level, file_name := file_name
                  file_size := file_size, file_hash := file_hash
                  submitted_by := user_id, submitted_at := now
                  status := "submitted"
                  declared_duration_seconds := declared_duration_seconds }
              ({ db with task_submissions :=
                  db.task_submissions.map (fun s => if s.id = s0.id then row else s) },
                .ok row)
            | none =>
              let row : TaskSubmission :=
                { id := db.next_submission_id, competition_id := task.competition_id
                  team_id := user_team_id, task_id := task_id
                  level := task.level, file_name := file_name
                  file_size := file_size, file_hash := file_hash
                  submitted_by := user_id, submitted_at := now
                  status := "submitted"
                  declared_duration_seconds := declared_duration_seconds }
              ({ db with
                  task_submissions := db.task_submissions ++ [row]
                  next_submission_id := db.next_submission_id + 1 },
                .ok row)

/-- `lock_task_submission`: sets status = "locked" on the row; the
update runs unconditionally and 404 is reported when no row matched. -/
def lock_task_submission (db : DB) (submission_id : ℕ) : DB × Except HErr Unit :=
  let db1 := { db with task_submissions :=
    db.task_submissions.map (fun s =>
      if s.id = submission_id then { s with status := "locked" } else s) }
  if (db.task_submissions.find? (fun s => s.id = submission_id)).isSome then
    (db1, .ok ())
  else
    (db1, .error ⟨404, "Submission not found"⟩)

-- ===========================================================
-- Appeals (strategic_router.create_score_appeal, lines 725-775, and
-- review_score_appeal, lines 799-825)
-- ===========================================================

/-- `create_score_appeal`: membership check, then insert a new appeal in
status "pending" with `original_score` captured from the first
`task_submission_scores` row of the submission (no judge filter in the
source). -/
def create_score_appeal (db : DB) (submission_id appellant_id : ℕ)
    (appeal_reason : String) : DB × Except HErr ScoreAppeal :=
  match db.task_submissions.find? (fun s => s.id = submission_id) with
  | none => (db, .error ⟨404, "Submission not found"⟩)
  | some sub =>
    if (db.team_members.find? (fun tm =>
        tm.team_id = sub.team_id ∧ tm.user_id = appellant_id)).isSome = false then
      (db, .error ⟨403, "You are not a member of this team"⟩)
    else
      let original_score := (db.task_submission_scores.find?
        (fun r => r.task_submission_id = submission_id)).map
          (fun r => r.weighted_total)
      let row : ScoreAppeal :=
        { id := db.next_appeal_id, submission_id := submission_id
          team_id := sub.team_id, competition_id := sub.competition_id
          appellant_id := appellant_id, original_score := original_score
          appeal_reason := appeal_reason, appeal_status := "pending"
          review_notes := "", reviewed_by := none, reviewed_at := none
          adjusted_score := none }
      ({ db with
          score_appeals := db.score_appeals ++ [row]
          next_appeal_id := db.next_appeal_id + 1 }, .ok row)

/-- `review_score_appeal`: writes the given status (any string),
reviewer and notes onto every appeal row with the id; `adjusted_score`
is written only when a value was supplied and the status is "adjusted".
There is no check of the appeal's current status and no failure path. -/
def review_score_appeal (db : DB) (appeal_id : ℕ) (status review_notes : String)
    (adjusted_score : Option ℚ) (reviewer_id now : ℕ) : DB × Except HErr Unit :=
  ({ db with score_appeals := db.score_appeals.map (fun a =>
      if a.id = appeal_id then
        let a1 := { a with
          appeal_status := status
          reviewed_by := some reviewer_id, reviewed_at := some now
          review_notes := review_notes }
        if adjusted_score.isSome ∧ status = "adjusted" then
          { a1 with adjusted_score := adjusted_score }
        else a1
      else a) }, .ok ())

-- ===========================================================
-- Leaderboard (phase5_10_router.calculate_leaderboard, lines 886-952)
-- ===========================================================

/-- One computed leaderboard row (the per-team dict of
`calculate_leaderboard`, rank added at the end). -/
structure LBEntry where
  team_id : ℕ
  team_name : String
  level_2_score : ℚ
  level_3_score : ℚ
  level_4_score : ℚ
  cumulative_score : ℚ
  last_submission_at : Option ℕ
  rank : ℕ
  deriving Repr, DecidableEq

/-- The initial per-team dict entry (lines 898-906). -/
def initLBEntry (t : Team) : LBEntry :=
  { team_id := t.id, team_name := t.team_name
    level_2_score := 0, level_3_score := 0, level_4_score := 0
    cumulative_score := 0, last_submission_at := none, rank := 0 }

/-- Add a weighted total into the matching per-level bucket; levels
without a `level_l_score` key (anything but 2, 3, 4) add nothing. -/
def addLevelScore (level : ℕ) (wt : ℚ) (e : LBEntry) : LBEntry :=
  if level = 2 then { e with level_2_score := e.level_2_score + wt }
  else if level = 3 then { e with level_3_score := e.level_3_score + wt }
  else if level = 4 then { e with level_4_score := e.level_4_score + wt }
  else e

/-- Track the latest submission time (lines 925-929). -/
def updateLastSubmission (submitted_at : ℕ) (e : LBEntry) : LBEntry :=
  match e.last_submission_at with
  | none => { e with last_submission_at := some submitted_at }
  | some cur =>
    if cur < submitted_at then { e with last_submission_at := some submitted_at }
    else e

/-- The per-score-row update of the team dict entry. -/
def updateLBEntry (sub : TaskSubmission) (row : TaskSubmissionScore)
    (e : LBEntry) : LBEntry :=
  updateLastSubmission sub.submitted_at (addLevelScore sub.level row.weighted_total e)

/-- Process one final `task_submission_scores` row (lines 914-929): join
the submission by id; skip when the join is empty, the level is falsy, or
the team is not in the dict. -/
def applyFinalScore (subs : List TaskSubmission) (acc : List LBEntry)
    (row : TaskSubmissionScore) : List LBEntry :=
  match subs.find? (fun s => s.id = row.task_submission_id) with
  | none => acc
  | some sub =>
    if sub.level = 0 then acc
    else acc.map (fun e => if e.team_id = sub.team_id then updateLBEntry sub row e else e)

/-- Strict-before comparison of the Python sort key
`(-cumulative_score, last_submission_at or "9999")`; a missing timestamp
(`none`) sorts above every real one. -/
def tsLtB : Option ℕ → Option ℕ → Bool
  | some a, some b => a < b
  | some _, none => true
  | none, _ => false

/-- Strict "ranks before" on leaderboard entries: higher cumulative
score first, ties by earlier last submission, missing timestamps last. -/
def rankLt (e f : LBEntry) : Bool :=
  decide (f.cumulative_score < e.cumulative_score) ||
    (decide (e.cumulative_score = f.cumulative_score) &&
      tsLtB e.last_submission_at f.last_submission_at)

/-- Insert an element behind every earlier element it does not strictly
precede (the insertion step of a stable sort). -/
def insertByLt {α : Type} (lt : α → α → Bool) (a : α) : List α → List α
  | [] => [a]
  | b :: l => if lt a b then a :: b :: l else b :: insertByLt lt a l

/-- Stable sort by a strict comparison, processing the input left to
right (extensionally Python's `sorted` for a strict weak order). -/
def sortByLt {α : Type} (lt : α → α → Bool) (l : List α) : List α :=
  l.foldl (fun acc x => insertByLt lt x acc) []

/-- The rank assignment loop (`for i, entry in enumerate(rankings)`). -/
def addRanks : ℕ → List LBEntry → List LBEntry
  | _, [] => []
  | i, e :: es => { e with rank := i + 1 } :: addRanks (i + 1) es

/-- `calculate_leaderboard`: per-team dict seeded from the competition's
teams, folded over all final judge scores (summing `weighted_total` into
the submission's level bucket), cumulative = level 2 + 3 + 4, sorted by
(-cumulative, last submission or sentinel), ranks 1, 2, 3, ... by
position.  The source's unused `level` parameter is dropped. -/
def calculate_leaderboard (db : DB) (competition_id : ℕ) : List LBEntry :=
  let teams := db.teams.filter (fun t => t.competition_id = competition_id)
  let final_scores := db.task_submission_scores.filter (fun r => r.is_final)
  let scored := final_scores.foldl (applyFinalScore db.task_submissions)
    (teams.map initLBEntry)
  let withCum := scored.map (fun e =>
    { e with cumulative_score := e.level_2_score + e.level_3_score + e.level_4_score })
  addRanks 0 (sortByLt rankLt withCum)

/-- The level score the implementation actually aggregates for a team:
the plain sum of `weighted_total` over all final judge-score rows whose
joined submission belongs to the team at that level (no mean over
judges, no appeal override). -/
def code_level_score (db : DB) (team_id level : ℕ) : ℚ :=
  ((db.task_submission_scores.filter (fun r => r.is_final ∧
      (db.task_submissions.find? (fun s => s.id = r.task_submission_id)).any
        (fun s => s.team_id = team_id ∧ s.level = level))).map
    (fun r => r.weighted_total)).sum

/-- Modelled from the spec's words (section 4.4), for comparison with
the implementation: per submission, an accepted appeal's adjusted score,
else the mean of the finalized judges' weighted totals (0 when no judge
finalized); summed over the team's submissions of the level. -/
def spec_level_score (db : DB) (team_id level : ℕ) : ℚ :=
  ((db.task_submissions.filter (fun s => s.team_id = team_id ∧ s.level = level)).map
    (fun s =>
      match (db.score_appeals.find? (fun a =>
          a.submission_id = s.id ∧ a.appeal_status = "adjusted")).bind
          (fun a => a.adjusted_score) with
      | some v => v
      | none =>
        let finals := db.task_submission_scores.filter
          (fun r => r.task_submission_id = s.id ∧ r.is_final)
        if finals.length = 0 then 0
        else (finals.map (fun r => r.weighted_total)).sum / (finals.length : ℚ))).sum

-- ===========================================================
-- Snapshot / publisher (phase5_10_router.publish_competition_results,
-- lines 955-994, and get_competition_leaderboard, lines 840-883)
-- ===========================================================

/-- The snapshot row written for one ranked entry. -/
def snapshotRowOf (competition_id : ℕ) (e : LBEntry) : LeaderboardSnapshot :=
  { competition_id := competition_id, team_id := e.team_id
    team_name := e.team_name, final_rank := e.rank
    level_2_score := e.level_2_score, level_3_score := e.level_3_score
    level_4_score := e.level_4_score, cumulative_score := e.cumulative_score
    last_submission_at := e.last_submission_at }

/-- `publish_competition_results`: computes the live leaderboard, upserts
one snapshot row per ranked team (on conflict (competition, team)), sets
`results_published = true`.  There is no precondition and no failure
path. -/
def publish_competition_results (db : DB) (competition_id : ℕ) :
    DB × Except HErr (List LBEntry) :=
  let rankings := calculate_leaderboard db competition_id
  let snaps := rankings.foldl (fun acc e =>
    upsertBy (fun r => r.competition_id = competition_id ∧ r.team_id = e.team_id)
      (snapshotRowOf competition_id e) acc) db.leaderboard_snapshots
  ({ db with
      leaderboard_snapshots := snaps
      competitions := db.competitions.map (fun c =>
        if c.id = competition_id then { c with results_published := true } else c) },
    .ok rankings)

/-- View of a stored snapshot row as a leaderboard row. -/
def snapToEntry (r : LeaderboardSnapshot) : LBEntry :=
  { team_id := r.team_id, team_name := r.team_name
    level_2_score := r.level_2_score, level_3_score := r.level_3_score
    level_4_score := r.level_4_score, cumulative_score := r.cumulative_score
    last_submission_at := r.last_submission_at, rank := r.final_rank }

/-- Snapshot retrieval order (`.order("final_rank")`). -/
def snapLt (a b : LeaderboardSnapshot) : Bool := a.final_rank < b.final_rank

/-- The competition's snapshot rows as the read endpoint returns them. -/
def frozenRows (db : DB) (competition_id : ℕ) : List LBEntry :=
  (sortByLt snapLt (db.leaderboard_snapshots.filter
    (fun r => r.competition_id = competition_id))).map snapToEntry

/-- `get_competition_leaderboard`: 404 for a missing competition, 403
when results are unpublished and the caller is not an admin; then the
frozen snapshot when one exists, else the live computation. -/
def get_competition_leaderboard (db : DB) (competition_id : ℕ)
    (user_role : String) : Except HErr (List LBEntry) :=
  match db.competitions.find? (fun c => c.id = competition_id) with
  | none => .error ⟨404, "Competition not found"⟩
  | some competition =>
    if competition.results_published = false ∧ user_role ≠ "admin" then
      .error ⟨403, "Results are not yet published"⟩
    else
      let snaps := sortByLt snapLt (db.leaderboard_snapshots.filter
        (fun r => r.competition_id = competition_id))
      if snaps.isEmpty then .ok (calculate_leaderboard db competition_id)
      else .ok (snaps.map snapToEntry)

-- ===========================================================
-- The core operations as a step relation (for the temporal claims)
-- ===========================================================

/-- One call of a state-mutating core operation (everything exposed by
the engine except publishing itself). -/
inductive Op where
  | score (submission_id judge_id : ℕ) (score_data : JudgeScoreSubmit) (now : ℕ)
  | file (task_id user_id : ℕ) (file_name file_ext : String) (file_size : ℕ)
      (file_hash : String) (declared_duration_seconds : Option ℕ) (now : ℕ)
  | lockSubmission (submission_id : ℕ)
  | appeal (submission_id appellant_id : ℕ) (appeal_reason : String)
  | review (appeal_id : ℕ) (status review_notes : String)
      (adjusted_score : Option ℚ) (reviewer_id now : ℕ)
  deriving Repr

/-- The database after one operation (errors leave the state the call
left behind, exactly as the endpoints do). -/
def Op.apply (o : Op) (db : DB) : DB :=
  match o with
  | .score sid jid payload now => (submit_judge_score db sid jid payload now).1
  | .file tid uid fname fext fsize fhash decl now =>
      (submit_task_file db tid uid fname fext fsize fhash decl now).1
  | .lockSubmission sid => (lock_task_submission db sid).1
  | .appeal sid uid reason => (create_score_appeal db sid uid reason).1
  | .review aid st notes adj rid now =>
      (review_score_appeal db aid st notes adj rid now).1

/-- Run a sequence of core operations. -/
def runOps (db : DB) (ops : List Op) : DB := ops.foldl (fun d o => o.apply d) db

-- ===========================================================
-- Concrete fixtures used by counterexamples and witnesses
-- ===========================================================

def fixCompetition : Competition :=
  { id := 1, title := "C", current_level := 2, submissions_locked := false
    level_2_deadline := none, level_3_deadline := none
    level_4_deadline := none, results_published := false }

def fixTask : Task :=
  { id := 10, competition_id := 1, level := 2, deadline := none
    allowed_file_types := ["pdf"], max_file_size_mb := some 50
    is_active := true }

def fixTeam : Team := { id := 7, competition_id := 1, team_name := "T" }

def fixSubmission : TaskSubmission :=
  { id := 100, competition_id := 1, team_id := 7, task_id := 10, level := 2
    file_name := "a.pdf", file_size := 1, file_hash := "h"
    submitted_by := 3, submitted_at := 5, status := "submitted"
    declared_duration_seconds := none }

def fixCriterionA : ScoringCriterion :=
  { id := 1, weight := 60, applies_to_levels := [2], is_active := true }

def fixCriterionB : ScoringCriterion :=
  { id := 2, weight := 40, applies_to_levels := [2], is_active := true }

/-- A minimal consistent database: one competition at level 2, one task,
one team with user 3, one submission, judge 9 assigned, two criteria. -/
def baseDB : DB :=
  { competitions := [fixCompetition], tasks := [fixTask], teams := [fixTeam]
    team_members := [{ team_id := 7, user_id := 3 }]
    task_submissions := [fixSubmission]
    scoring_criteria := [fixCriterionA, fixCriterionB]
    task_score_entries := [], task_submission_scores := []
    judge_assignments := [{ competition_id := 1, judge_id := 9, is_active := true }]
    leaderboard_snapshots := [], score_appeals := []
    next_submission_id := 101, next_appeal_id := 1 }

/-- Payload scoring both criteria in one call (weight 60 at 80, weight
40 at 50), the spec's weighted-total example. -/
def payload68 : JudgeScoreSubmit :=
  { scores := [ { criterion_id := 1, score := 80, feedback := "" },
                { criterion_id := 2, score := 50, feedback := "" } ]
    overall_feedback := "", is_final := false }

/-- Payload scoring only criterion B. -/
def payloadBOnly : JudgeScoreSubmit :=
  { scores := [ { criterion_id := 2, score := 50, feedback := "" } ]
    overall_feedback := "", is_final := false }

/-- Database in which judge 9 already stored a criterion-A score entry
of 80 for submission 100 (from an earlier call). -/
def dbWithEntryA : DB :=
  { baseDB with task_score_entries :=
      [ { task_submission_id := 100, criterion_id := 1, judge_id := 9
          score := 80, feedback := "" } ] }

/-- Database in which judge 9 holds a finalized score for submission
100. -/
def dbFinal : DB :=
  { baseDB with task_submission_scores :=
      [ { task_submission_id := 100, judge_id := 9, weighted_total := 50
          overall_feedback := "", is_final := true, scored_at := 1 } ] }

/-- An appeal on submission 100 that has already been resolved as
"adjusted" (adjusted score 90). -/
def appealAdj : ScoreAppeal :=
  { id := 1, submission_id := 100, team_id := 7, competition_id := 1
    appellant_id := 3, original_score := some 50, appeal_reason := "r"
    appeal_status := "adjusted", review_notes := "", reviewed_by := some 2
    reviewed_at := some 9, adjusted_score := some 90 }

/-- Database holding the already-adjusted appeal. -/
def dbAdjusted : DB := { baseDB with score_appeals := [appealAdj] }

/-- Whether one final score row contributes to team t's level-l bucket:
its joined submission belongs to t at level l. -/
def contribPredB (subs : List TaskSubmission) (r : TaskSubmissionScore)
    (t l : ℕ) : Bool :=
  (subs.find? (fun s => s.id = r.task_submission_id)).any
    (fun s => s.team_id = t ∧ s.level = l)

/-- Total added to team t's level-l bucket by a list of score rows. -/
def levelContrib (subs : List TaskSubmission) (rows : List TaskSubmissionScore)
    (t l : ℕ) : ℚ :=
  ((rows.filter (fun r => contribPredB subs r t l)).map
    (fun r => r.weighted_total)).sum

/-- Non-strict "sorts at or before" on the leaderboard key. -/
def tsLeB (a b : Option ℕ) : Bool := !(tsLtB b a)

/-- The claimed leaderboard ordering of two adjacent rows: strictly
higher cumulative score, or equal scores and an earlier (or equal) last
submission, a missing timestamp counting as +infinity. -/
def rankedBefore (a b : LBEntry) : Prop :=
  b.cumulative_score < a.cumulative_score ∨
    (a.cumulative_score = b.cumulative_score ∧
      tsLeB a.last_submission_at b.last_submission_at = true)

/-- Database with two finalized judge scores (80 and 60) on submission
100 of team 7 at level 2. -/
def dbTwoJudges : DB :=
  { baseDB with task_submission_scores :=
      [ { task_submission_id := 100, judge_id := 9, weighted_total := 80
          overall_feedback := "", is_final := true, scored_at := 1 },
        { task_submission_id := 100, judge_id := 8, weighted_total := 60
          overall_feedback := "", is_final := true, scored_at := 2 } ] }

/-- A second team of the same competition with no submissions at all. -/
def fixTeam8 : Team := { id := 8, competition_id := 1, team_name := "U" }

/-- dbTwoJudges extended with the submission-less team 8. -/
def dbTwoTeams : DB := { dbTwoJudges with teams := [fixTeam, fixTeam8] }

/-- The base database with its competition but no teams at all. -/
def dbNoTeams : DB := { baseDB with teams := [] }

/-- One payload entry passes the loop's validation: its criterion is an
active one and, when it applies to the level, its score is in range. -/
def entryOk (criteria : List ScoringCriterion) (level : ℕ)
    (e : ScoreEntryInput) : Prop :=
  ∃ c, criteria.find? (fun c2 => c2.id = e.criterion_id) = some c ∧
    (¬ c.applies_to_levels.contains level = true ∨
      (¬ e.score < 0 ∧ ¬ e.score > 100))

/-- One payload entry fails the loop's validation: unknown criterion, or
an applicable score out of [0, 100]. -/
def entryBad (criteria : List ScoringCriterion) (level : ℕ)
    (e : ScoreEntryInput) : Prop :=
  criteria.find? (fun c2 => c2.id = e.criterion_id) = none ∨
    ∃ c, criteria.find? (fun c2 => c2.id = e.criterion_id) = some c ∧
      c.applies_to_levels.contains level = true ∧
      (e.score < 0 ∨ e.score > 100)

/-- Whether the loop upserts a row for this entry (active criterion that
applies to the submission's level). -/
def entryApplicableB (criteria : List ScoringCriterion) (level : ℕ)
    (e : ScoreEntryInput) : Bool :=
  (criteria.find? (fun c2 => c2.id = e.criterion_id)).any
    (fun c => c.applies_to_levels.contains level)

/-- The ScoreEntry upsert the loop performs for one payload entry. -/
def entryUpsert (sid jid : ℕ) (entries : List TaskScoreEntry)
    (e : ScoreEntryInput) : List TaskScoreEntry :=
  upsertBy (fun r => r.task_submission_id = sid ∧
      r.criterion_id = e.criterion_id ∧ r.judge_id = jid)
    { task_submission_id := sid, criterion_id := e.criterion_id
      judge_id := jid, score := e.score, feedback := e.feedback }
    entries

/-- A payload scoring criterion A in range and criterion B out of range
(150). -/
def payloadBad : JudgeScoreSubmit :=
  { scores := [ { criterion_id := 1, score := 80, feedback := "" },
                { criterion_id := 2, score := 150, feedback := "" } ]
    overall_feedback := "", is_final := true }

end AIWebsite

namespace AIWebsite

-- ===========================================================
-- Theorems for claim C1
-- ===========================================================

/-- C1, counterexample: with `submissions_locked = true` and an existing
unlocked submission, the implemented gate returns "submitted", not
"locked" as the claimed priority order (spec rule 1 first) requires; the
claim's order and the code's order disagree at this input. -/
theorem C1_gate_priority_counterexample :
    task_submission_status gateCexCompetition gateCexTask
        (some gateCexSubmission) 0 = "submitted" ∧
    specGateStatus gateCexCompetition gateCexTask
        (some gateCexSubmission) 0 = "locked" ∧
    task_submission_status gateCexCompetition gateCexTask
        (some gateCexSubmission) 0 ≠
      specGateStatus gateCexCompetition gateCexTask
        (some gateCexSubmission) 0 := by
  refine ⟨rfl, rfl, ?_⟩
  decide

/-- C1, amended: the gate checks the existing submission first.  The
returned status is decided by the first matching rule in the order:
existing submission with status locked -> locked; existing (unlocked)
submission -> submitted; competition.submissions_locked -> locked;
task.level > competition.current_level -> level_not_active; effective
deadline (task deadline, else its level's deadline) passed ->
past_deadline; otherwise open.  When no submission exists,
submissions_locked still wins over level_not_active.  can_submit is true
iff the status is open. -/
theorem C1_gate_priority_amended (competition : Competition) (task : Task)
    (submission : Option TaskSubmission) (now : ℕ) :
    task_submission_status competition task submission now =
      firstMatch
        [ (submission.any (fun s => s.status = "locked"), "locked"),
          (submission.isSome, "submitted"),
          (competition.submissions_locked, "locked"),
          (decide (task.level > competition.current_level), "level_not_active"),
          ((effectiveDeadline competition task).any (fun d => d < now),
            "past_deadline") ]
        "open" ∧
    (can_submit competition task submission now = true ↔
      task_submission_status competition task submission now = "open") := by
  constructor
  · cases submission with
    | some s =>
        by_cases h : s.status = "locked" <;>
          simp [task_submission_status, firstMatch, h]
    | none =>
        simp only [task_submission_status, firstMatch, Option.any_none,
          Option.isSome_none, effectiveDeadline, Bool.false_eq_true, if_false]
        by_cases hl : competition.submissions_locked <;> simp [hl]
        by_cases hlev : task.level > competition.current_level <;> simp [hlev]
        cases hd : task.deadline.or (competition.levelDeadline task.level) with
        | none => simp
        | some d => by_cases hn : d < now <;> simp [hn]
  · simp [can_submit]

-- ===========================================================
-- Helper lemmas on rounding, upserts and the score loop
-- ===========================================================

theorem roundHalfEven_intCast (n : ℤ) : roundHalfEven (n : ℚ) = n := by
  simp only [roundHalfEven, Int.floor_intCast, sub_self]
  norm_num

theorem round2_of_mul_eq (q : ℚ) (n : ℤ) (h : q * 100 = (n : ℚ)) :
    round2 q = (n : ℚ) / 100 := by
  rw [round2, h, roundHalfEven_intCast]

theorem find?_upsertBy_self {α : Type} (key : α → Bool) (new : α) (l : List α)
    (h : key new = true) : (upsertBy key new l).find? key = some new := by
  induction l with
  | nil => simp [upsertBy, List.find?, h]
  | cons x xs ih =>
    by_cases hx : key x
    · simp [upsertBy, hx, List.find?, h]
    · simp [upsertBy, hx, List.find?, ih]

theorem scoreLoop_ok_sum (criteria : List ScoringCriterion) (level sid jid : ℕ)
    (scores : List ScoreEntryInput) (w0 : ℚ) (entries es : List TaskScoreEntry)
    (w : ℚ)
    (h : scoreLoop criteria level sid jid scores w0 entries = (es, .ok w)) :
    w = w0 + call_weighted_sum criteria level scores := by
  induction scores generalizing w0 entries with
  | nil =>
    simp only [scoreLoop, Prod.mk.injEq, Except.ok.injEq] at h
    simp [call_weighted_sum, h.2]
  | cons e rest ih =>
    simp only [scoreLoop] at h
    split at h
    · simp at h
    · next c hc =>
      split at h
      · next hskip =>
        have hrec := ih _ _ h
        rw [hrec]
        have hnot : ¬ level ∈ c.applies_to_levels := by simpa using hskip
        simp [call_weighted_sum, hc, hnot]
      · next hnoskip =>
        split at h
        · simp at h
        · next hr =>
          have hrec := ih _ _ h
          rw [hrec]
          have hmem : level ∈ c.applies_to_levels := by simpa using hnoskip
          simp [call_weighted_sum, hc, hmem]
          ring

/-- Characterization of a successful submit_judge_score call: the
submission was found, the returned total is the rounded sum over the
call's applicable entries, and the new state stores exactly that total
with the payload's is_final, while every other table is untouched. -/
theorem submit_judge_score_ok_spec (db : DB) (sid jid : ℕ)
    (payload : JudgeScoreSubmit) (now : ℕ) (db1 : DB) (wt : ℚ)
    (hrun : submit_judge_score db sid jid payload now = (db1, .ok wt)) :
    ∃ sub, db.task_submissions.find? (fun s => s.id = sid) = some sub ∧
      wt = round2 (call_weighted_sum
        (db.scoring_criteria.filter (fun c => c.is_active)) sub.level
        payload.scores) ∧
      db1.task_submission_scores =
        upsertBy (fun r => r.task_submission_id = sid ∧ r.judge_id = jid)
          { task_submission_id := sid, judge_id := jid, weighted_total := wt
            overall_feedback := payload.overall_feedback
            is_final := payload.is_final, scored_at := now }
          db.task_submission_scores ∧
      db1.competitions = db.competitions ∧
      db1.tasks = db.tasks ∧
      db1.teams = db.teams ∧
      db1.team_members = db.team_members ∧
      db1.task_submissions = db.task_submissions ∧
      db1.leaderboard_snapshots = db.leaderboard_snapshots ∧
      db1.score_appeals = db.score_appeals ∧
      db1.judge_assignments = db.judge_assignments ∧
      db1.scoring_criteria = db.scoring_criteria ∧
      db1.next_submission_id = db.next_submission_id ∧
      db1.next_appeal_id = db.next_appeal_id ∧
      (∃ a, db.judge_assignments.find? (fun a2 =>
        a2.competition_id = sub.competition_id ∧ a2.judge_id = jid ∧
        a2.is_active = true) = some a) ∧
      ∃ wtf, scoreLoop (db.scoring_criteria.filter (fun c => c.is_active))
          sub.level sid jid payload.scores 0 db.task_score_entries =
          (db1.task_score_entries, .ok wtf) ∧
        wt = round2 wtf := by
  rw [submit_judge_score] at hrun
  split at hrun
  · simp at hrun
  · next sub hs =>
    split at hrun
    · simp at hrun
    · next a ha =>
      simp only [] at hrun
      split at hrun
      · simp at hrun
      · next entries1 wtf hl =>
        simp only [Prod.mk.injEq, Except.ok.injEq] at hrun
        obtain ⟨hdb, hwt⟩ := hrun
        refine ⟨sub, hs, ?_, ?_, ?_, ?_, ?_, ?_, ?_, ?_, ?_, ?_, ?_, ?_, ?_,
          ⟨a, ha⟩, ?_⟩
        · rw [← hwt]
          have hsum := scoreLoop_ok_sum _ _ _ _ _ _ _ _ _ hl
          rw [hsum, zero_add]
        · rw [← hdb, ← hwt]
        · rw [← hdb]
        · rw [← hdb]
        · rw [← hdb]
        · rw [← hdb]
        · rw [← hdb]
        · rw [← hdb]
        · rw [← hdb]
        · rw [← hdb]
        · rw [← hdb]
        · rw [← hdb]
        · rw [← hdb]
        · refine ⟨wtf, ?_, hwt.symm⟩
          have hent : db1.task_score_entries = entries1 := by rw [← hdb]
          rw [hent]
          exact hl

-- ===========================================================
-- Theorems for claim C3
-- ===========================================================

/-- C3, counterexample: with a criterion-A entry (weight 60, score 80)
already stored from an earlier call, a second call carrying only
criterion B (weight 40, score 50) stores weighted_total = 20.00 —
computed from the call's entries only — although the recomputation over
all current ScoreEntry rows claimed by the spec yields 68.00. -/
theorem C3_weighted_total_counterexample :
    (submit_judge_score dbWithEntryA 100 9 payloadBOnly 50).2 = .ok 20 ∧
    ((submit_judge_score dbWithEntryA 100 9 payloadBOnly 50).1.task_submission_scores.find?
        (fun r => r.task_submission_id = 100 ∧ r.judge_id = 9)).map
      (fun r => r.weighted_total) = some 20 ∧
    spec_weighted_total (submit_judge_score dbWithEntryA 100 9 payloadBOnly 50).1
        100 9 2 = 68 ∧
    (20 : ℚ) ≠ 68 := by
  have h20 : round2 (20 : ℚ) = 20 := by
    have := round2_of_mul_eq (20 : ℚ) 2000 (by norm_num)
    rw [this]; norm_num
  have h68 : round2 (68 : ℚ) = 68 := by
    have := round2_of_mul_eq (68 : ℚ) 6800 (by norm_num)
    rw [this]; norm_num
  refine ⟨?_, ?_, ?_, by norm_num⟩ <;>
    norm_num [submit_judge_score, dbWithEntryA, baseDB, fixSubmission, fixTask,
      fixCompetition, fixTeam, fixCriterionA, fixCriterionB, payloadBOnly,
      scoreLoop, upsertBy, spec_weighted_total, List.find?, List.filter, h20, h68]

/-- C3, amended: after a successful submit_score call, the stored
weighted_total equals round(Σ score_i x weight_i / 100, 2) computed over
the applicable entries passed in that call only — ScoreEntry rows stored
by earlier calls are not re-read; the example still holds when both
criteria (weight 60 at 80, weight 40 at 50) arrive in one call, giving
weighted_total = 68.00. -/
theorem C3_weighted_total_amended (db : DB) (sid jid : ℕ)
    (payload : JudgeScoreSubmit) (now : ℕ) (db1 : DB) (wt : ℚ)
    (hrun : submit_judge_score db sid jid payload now = (db1, .ok wt)) :
    ∃ sub, db.task_submissions.find? (fun s => s.id = sid) = some sub ∧
      wt = round2 (call_weighted_sum
        (db.scoring_criteria.filter (fun c => c.is_active)) sub.level
        payload.scores) ∧
      db1.task_submission_scores.find?
          (fun r => r.task_submission_id = sid ∧ r.judge_id = jid) =
        some { task_submission_id := sid, judge_id := jid, weighted_total := wt
               overall_feedback := payload.overall_feedback
               is_final := payload.is_final, scored_at := now } := by
  obtain ⟨sub, hs, hwt, hts, -⟩ :=
    submit_judge_score_ok_spec db sid jid payload now db1 wt hrun
  refine ⟨sub, hs, hwt, ?_⟩
  rw [hts]
  exact find?_upsertBy_self _ _ _ (by simp)

/-- Witness for C3_weighted_total_amended: the call scoring criterion A
(weight 60) at 80 and criterion B (weight 40) at 50 in one payload
returns exactly 68.00 = round2 of the call's weighted sum. -/
theorem C3_weighted_total_amended_witness :
    (submit_judge_score baseDB 100 9 payload68 50).2 = .ok 68 ∧
    (68 : ℚ) = round2 (call_weighted_sum
      (baseDB.scoring_criteria.filter (fun c => c.is_active))
      fixSubmission.level payload68.scores) := by
  have h68 : round2 (68 : ℚ) = 68 := by
    have := round2_of_mul_eq (68 : ℚ) 6800 (by norm_num)
    rw [this]; norm_num
  have hsnd : (submit_judge_score baseDB 100 9 payload68 50).2 = .ok 68 := by
    norm_num [submit_judge_score, baseDB, fixSubmission, fixTask,
      fixCompetition, fixTeam, fixCriterionA, fixCriterionB, payload68,
      scoreLoop, upsertBy, List.find?, List.filter, h68]
  have hrun : submit_judge_score baseDB 100 9 payload68 50 =
      ((submit_judge_score baseDB 100 9 payload68 50).1, .ok 68) := by
    rw [← hsnd]
  obtain ⟨sub, hs, hwt, -⟩ :=
    C3_weighted_total_amended baseDB 100 9 payload68 50 _ 68 hrun
  have hsub : sub = fixSubmission := by
    rw [show baseDB.task_submissions.find? (fun s => s.id = 100) =
      some fixSubmission from rfl] at hs
    exact (Option.some.inj hs).symm
  exact ⟨hsnd, hsub ▸ hwt⟩

-- ===========================================================
-- Theorems for claim C4
-- ===========================================================

/-- C4, counterexample: a finalized JudgeScore (is_final = true) is set
back to false by a later submit_score call carrying is_final = false —
the upsert overwrites finality unconditionally, so a true-to-false
transition is exposed. -/
theorem C4_is_final_counterexample :
    (dbFinal.task_submission_scores.find?
        (fun r => r.task_submission_id = 100 ∧ r.judge_id = 9)).map
      (fun r => r.is_final) = some true ∧
    ((submit_judge_score dbFinal 100 9
        { scores := [], overall_feedback := "", is_final := false }
        60).1.task_submission_scores.find?
        (fun r => r.task_submission_id = 100 ∧ r.judge_id = 9)).map
      (fun r => r.is_final) = some false := by
  have h0 : round2 (0 : ℚ) = 0 := by
    have := round2_of_mul_eq (0 : ℚ) 0 (by norm_num)
    rw [this]; norm_num
  refine ⟨by rfl, ?_⟩
  norm_num [submit_judge_score, dbFinal, baseDB, fixSubmission, fixTask,
    fixCompetition, fixTeam, fixCriterionA, fixCriterionB, scoreLoop,
    upsertBy, List.find?, List.filter, h0]

/-- C4, amended: submit_score stores exactly the is_final flag given in
the call — finality is overwritable in both directions, true-to-false
included — and no other core operation (file submission, locking,
appeals, publication) writes the JudgeScore table at all. -/
theorem C4_is_final_amended (db : DB) (sid jid : ℕ)
    (payload : JudgeScoreSubmit) (now : ℕ) (db1 : DB) (wt : ℚ)
    (hrun : submit_judge_score db sid jid payload now = (db1, .ok wt)) :
    (db1.task_submission_scores.find?
        (fun r => r.task_submission_id = sid ∧ r.judge_id = jid)).map
      (fun r => r.is_final) = some payload.is_final ∧
    (∀ tid uid fn fe fs fh dd n2,
      ((submit_task_file db tid uid fn fe fs fh dd n2).1).task_submission_scores =
        db.task_submission_scores) ∧
    (∀ sid2, ((lock_task_submission db sid2).1).task_submission_scores =
        db.task_submission_scores) ∧
    (∀ sid2 uid reason,
      ((create_score_appeal db sid2 uid reason).1).task_submission_scores =
        db.task_submission_scores) ∧
    (∀ aid st nt adj rv n2,
      ((review_score_appeal db aid st nt adj rv n2).1).task_submission_scores =
        db.task_submission_scores) ∧
    (∀ cid, ((publish_competition_results db cid).1).task_submission_scores =
        db.task_submission_scores) := by
  refine ⟨?_, ?_, ?_, ?_, ?_, ?_⟩
  · obtain ⟨sub, hs, hwt, hts, -⟩ :=
      submit_judge_score_ok_spec db sid jid payload now db1 wt hrun
    rw [hts, find?_upsertBy_self _ _ _ (by simp)]
    rfl
  · intro tid uid fn fe fs fh dd n2
    rw [submit_task_file]
    simp only []
    repeat' split
    all_goals rfl
  · intro sid2
    rw [lock_task_submission]
    split
    all_goals rfl
  · intro sid2 uid reason
    rw [create_score_appeal]
    simp only []
    repeat' split
    all_goals rfl
  · intro aid st nt adj rv n2
    rfl
  · intro cid
    rfl

/-- Witness for C4_is_final_amended: a finalizing call (is_final = true)
on the base database stores is_final = true. -/
theorem C4_is_final_amended_witness :
    ((submit_judge_score baseDB 100 9
        { scores := [], overall_feedback := "", is_final := true }
        60).1.task_submission_scores.find?
        (fun r => r.task_submission_id = 100 ∧ r.judge_id = 9)).map
      (fun r => r.is_final) = some true := by
  have h0 : round2 (0 : ℚ) = 0 := by
    have := round2_of_mul_eq (0 : ℚ) 0 (by norm_num)
    rw [this]; norm_num
  have hsnd : (submit_judge_score baseDB 100 9
      { scores := [], overall_feedback := "", is_final := true } 60).2 =
      .ok 0 := by
    norm_num [submit_judge_score, baseDB, fixSubmission, fixTask,
      fixCompetition, fixTeam, fixCriterionA, fixCriterionB, scoreLoop,
      upsertBy, List.find?, List.filter, h0]
  have hrun : submit_judge_score baseDB 100 9
      { scores := [], overall_feedback := "", is_final := true } 60 =
      ((submit_judge_score baseDB 100 9
        { scores := [], overall_feedback := "", is_final := true } 60).1,
        .ok 0) := by
    rw [← hsnd]
  exact (C4_is_final_amended baseDB 100 9
    { scores := [], overall_feedback := "", is_final := true } 60 _ 0 hrun).1

-- ===========================================================
-- Theorems for claim C7
-- ===========================================================

/-- C7, counterexample: an appeal already in the terminal status
"adjusted" is changed to "rejected" by a further review call — the code
writes the given status unconditionally, so adjusted and rejected are
not terminal. -/
theorem C7_appeal_terminal_counterexample :
    (dbAdjusted.score_appeals.find? (fun a => a.id = 1)).map
      (fun a => a.appeal_status) = some "adjusted" ∧
    ((review_score_appeal dbAdjusted 1 "rejected" "" none 2 99).1.score_appeals.find?
        (fun a => a.id = 1)).map
      (fun a => a.appeal_status) = some "rejected" := by
  constructor
  · rfl
  · rfl

/-- C7, amended: review_appeal overwrites the appeal's status with the
given decision string regardless of its current status — pending is not
required and adjusted/rejected are not terminal; adjusted_score is
written only when a value is supplied together with decision "adjusted";
rows with a different id are untouched, and the call always succeeds. -/
theorem C7_appeal_terminal_amended (db : DB) (appeal_id : ℕ)
    (status review_notes : String) (adjusted_score : Option ℚ)
    (reviewer_id now : ℕ) (a : ScoreAppeal) (ha : a ∈ db.score_appeals)
    (hid : a.id = appeal_id) :
    (review_score_appeal db appeal_id status review_notes adjusted_score
      reviewer_id now).2 = .ok () ∧
    ({ a with
        appeal_status := status, reviewed_by := some reviewer_id
        reviewed_at := some now, review_notes := review_notes
        adjusted_score :=
          if adjusted_score.isSome ∧ status = "adjusted" then adjusted_score
          else a.adjusted_score } : ScoreAppeal) ∈
      (review_score_appeal db appeal_id status review_notes adjusted_score
        reviewer_id now).1.score_appeals ∧
    ∀ b ∈ db.score_appeals, b.id ≠ appeal_id →
      b ∈ (review_score_appeal db appeal_id status review_notes adjusted_score
        reviewer_id now).1.score_appeals := by
  refine ⟨rfl, ?_, ?_⟩
  · have hmem := List.mem_map_of_mem (fun x : ScoreAppeal =>
      if x.id = appeal_id then
        let a1 := { x with
          appeal_status := status
          reviewed_by := some reviewer_id, reviewed_at := some now
          review_notes := review_notes }
        if adjusted_score.isSome ∧ status = "adjusted" then
          { a1 with adjusted_score := adjusted_score }
        else a1
      else x) ha
    rw [review_score_appeal]
    simp only [if_pos hid] at hmem
    by_cases hadj : adjusted_score.isSome ∧ status = "adjusted"
    · rw [if_pos hadj] at hmem
      rw [if_pos hadj]
      exact hmem
    · rw [if_neg hadj] at hmem
      rw [if_neg hadj]
      exact hmem
  · intro b hb hbid
    have hmem := List.mem_map_of_mem (fun x : ScoreAppeal =>
      if x.id = appeal_id then
        let a1 := { x with
          appeal_status := status
          reviewed_by := some reviewer_id, reviewed_at := some now
          review_notes := review_notes }
        if adjusted_score.isSome ∧ status = "adjusted" then
          { a1 with adjusted_score := adjusted_score }
        else a1
      else x) hb
    rw [review_score_appeal]
    simp only [if_neg hbid] at hmem
    exact hmem

/-- Witness for C7_appeal_terminal_amended: reviewing the
already-adjusted appeal with decision "rejected" succeeds and rewrites
its status. -/
theorem C7_appeal_terminal_amended_witness :
    (review_score_appeal dbAdjusted 1 "rejected" "" none 2 99).2 =
      .ok () ∧
    ({ appealAdj with
        appeal_status := "rejected", reviewed_by := some 2
        reviewed_at := some 99, review_notes := ""
        adjusted_score :=
          if (none : Option ℚ).isSome ∧ "rejected" = "adjusted" then none
          else appealAdj.adjusted_score } : ScoreAppeal) ∈
      (review_score_appeal dbAdjusted 1 "rejected" "" none 2 99).1.score_appeals := by
  have hmem : appealAdj ∈ dbAdjusted.score_appeals := by
    show appealAdj ∈ [appealAdj]
    exact List.mem_singleton.mpr rfl
  have h := C7_appeal_terminal_amended dbAdjusted 1 "rejected" "" none 2 99
    appealAdj hmem rfl
  exact ⟨h.1, h.2.1⟩

-- ===========================================================
-- Helper lemmas: stable insertion sort
-- ===========================================================

theorem insertByLt_perm {α : Type} (lt : α → α → Bool) (a : α) (l : List α) :
    (insertByLt lt a l).Perm (a :: l) := by
  induction l with
  | nil => simp [insertByLt]
  | cons b bs ih =>
    by_cases h : lt a b
    · simp [insertByLt, h]
    · simp only [insertByLt, if_neg h]
      exact ((ih.cons b).trans (List.Perm.swap a b bs))

theorem mem_insertByLt {α : Type} (lt : α → α → Bool) (a x : α) (l : List α) :
    x ∈ insertByLt lt a l ↔ x = a ∨ x ∈ l := by
  rw [(insertByLt_perm lt a l).mem_iff]
  simp

theorem insertByLt_pairwise {α : Type} (lt : α → α → Bool)
    (hasym : ∀ x y, lt x y = true → lt y x = false)
    (hneg : ∀ x y z, lt y x = false → lt z y = false → lt z x = false)
    (a : α) (l : List α) (hl : l.Pairwise (fun x y => lt y x = false)) :
    (insertByLt lt a l).Pairwise (fun x y => lt y x = false) := by
  induction l with
  | nil => simp [insertByLt]
  | cons b bs ih =>
    rcases List.pairwise_cons.mp hl with ⟨hb, hbs⟩
    by_cases h : lt a b
    · simp only [insertByLt, if_pos h]
      refine List.Pairwise.cons ?_ (List.Pairwise.cons hb hbs)
      intro y hy
      rcases List.mem_cons.mp hy with rfl | hy2
      · exact hasym a y h
      · exact hneg a b y (hasym a b h) (hb y hy2)
    · simp only [insertByLt, if_neg h]
      refine List.Pairwise.cons ?_ (ih hbs)
      intro y hy
      rcases (mem_insertByLt lt a y bs).mp hy with rfl | hy2
      · simpa using h
      · exact hb y hy2

theorem sortByLt_perm {α : Type} (lt : α → α → Bool) (l : List α) :
    (sortByLt lt l).Perm l := by
  have key : ∀ (l acc : List α),
      (l.foldl (fun acc x => insertByLt lt x acc) acc).Perm (acc ++ l) := by
    intro l
    induction l with
    | nil => intro acc; simp
    | cons x xs ih =>
      intro acc
      have h1 := ih (insertByLt lt x acc)
      have h2 : (insertByLt lt x acc ++ xs).Perm ((x :: acc) ++ xs) :=
        List.Perm.append_right xs (insertByLt_perm lt x acc)
      have h3 : ((x :: acc) ++ xs).Perm (acc ++ x :: xs) :=
        List.perm_middle.symm
      exact (h1.trans h2).trans h3
  simpa using key l []

theorem sortByLt_pairwise {α : Type} (lt : α → α → Bool)
    (hasym : ∀ x y, lt x y = true → lt y x = false)
    (hneg : ∀ x y z, lt y x = false → lt z y = false → lt z x = false)
    (l : List α) :
    (sortByLt lt l).Pairwise (fun x y => lt y x = false) := by
  have key : ∀ (l acc : List α),
      acc.Pairwise (fun x y => lt y x = false) →
      (l.foldl (fun acc x => insertByLt lt x acc) acc).Pairwise
        (fun x y => lt y x = false) := by
    intro l
    induction l with
    | nil => intro acc h; simpa using h
    | cons x xs ih =>
      intro acc h
      exact ih _ (insertByLt_pairwise lt hasym hneg x acc h)
  exact key l [] (List.Pairwise.nil)

-- ===========================================================
-- Helper lemmas: the leaderboard ordering is a strict weak order
-- ===========================================================

theorem tsLtB_asymm (a b : Option ℕ) (h : tsLtB a b = true) :
    tsLtB b a = false := by
  cases a <;> cases b <;> simp [tsLtB] at h ⊢ <;> omega

theorem tsLtB_negtrans (a b c : Option ℕ) (h1 : tsLtB b a = false)
    (h2 : tsLtB c b = false) : tsLtB c a = false := by
  cases a <;> cases b <;> cases c <;> simp [tsLtB] at h1 h2 ⊢ <;> omega

theorem rankLt_eq_true_iff (e f : LBEntry) : rankLt e f = true ↔
    (f.cumulative_score < e.cumulative_score ∨
      (e.cumulative_score = f.cumulative_score ∧
        tsLtB e.last_submission_at f.last_submission_at = true)) := by
  simp [rankLt]

theorem rankLt_eq_false_iff (e f : LBEntry) : rankLt e f = false ↔
    (¬ f.cumulative_score < e.cumulative_score ∧
      (e.cumulative_score = f.cumulative_score →
        tsLtB e.last_submission_at f.last_submission_at = false)) := by
  rw [← Bool.not_eq_true, rankLt_eq_true_iff]
  constructor
  · intro h
    constructor
    · intro hlt; exact h (Or.inl hlt)
    · intro heq
      cases hts : tsLtB e.last_submission_at f.last_submission_at with
      | false => rfl
      | true => exact absurd (Or.inr ⟨heq, hts⟩) h
  · rintro ⟨h1, h2⟩ (h3 | ⟨h4, h5⟩)
    · exact h1 h3
    · rw [h2 h4] at h5; exact Bool.false_ne_true h5

theorem rankLt_asymm (e f : LBEntry) (h : rankLt e f = true) :
    rankLt f e = false := by
  rw [rankLt_eq_true_iff] at h
  rw [rankLt_eq_false_iff]
  rcases h with h1 | ⟨h2, h3⟩
  · constructor
    · intro hh; linarith
    · intro heq; exfalso; rw [heq] at h1; exact lt_irrefl _ h1
  · constructor
    · intro hh; rw [h2] at hh; exact lt_irrefl _ hh
    · intro _; exact tsLtB_asymm _ _ h3

theorem rankLt_negtrans (a b c : LBEntry) (h1 : rankLt b a = false)
    (h2 : rankLt c b = false) : rankLt c a = false := by
  rw [rankLt_eq_false_iff] at h1 h2 ⊢
  obtain ⟨h1c, h1t⟩ := h1
  obtain ⟨h2c, h2t⟩ := h2
  constructor
  · intro hlt
    have hba : b.cumulative_score ≤ a.cumulative_score := not_lt.mp h1c
    have hcb : c.cumulative_score ≤ b.cumulative_score := not_lt.mp h2c
    linarith
  · intro heq
    have hba : b.cumulative_score ≤ a.cumulative_score := not_lt.mp h1c
    have hcb : c.cumulative_score ≤ b.cumulative_score := not_lt.mp h2c
    have hb_eq_a : b.cumulative_score = a.cumulative_score := by linarith
    have hc_eq_b : c.cumulative_score = b.cumulative_score := by linarith
    exact tsLtB_negtrans _ _ _ (h1t hb_eq_a) (h2t hc_eq_b)

-- ===========================================================
-- Helper lemmas: the leaderboard fold
-- ===========================================================

theorem addLevelScore_preserves (lvl : ℕ) (wt : ℚ) (e : LBEntry) :
    (addLevelScore lvl wt e).team_id = e.team_id ∧
    (addLevelScore lvl wt e).team_name = e.team_name ∧
    (addLevelScore lvl wt e).last_submission_at = e.last_submission_at ∧
    (addLevelScore lvl wt e).cumulative_score = e.cumulative_score := by
  unfold addLevelScore
  split_ifs <;> simp

theorem addLevelScore_levels (lvl : ℕ) (wt : ℚ) (e : LBEntry) :
    (addLevelScore lvl wt e).level_2_score =
      (if lvl = 2 then e.level_2_score + wt else e.level_2_score) ∧
    (addLevelScore lvl wt e).level_3_score =
      (if lvl = 3 then e.level_3_score + wt else e.level_3_score) ∧
    (addLevelScore lvl wt e).level_4_score =
      (if lvl = 4 then e.level_4_score + wt else e.level_4_score) := by
  unfold addLevelScore
  split_ifs <;> simp_all

theorem updateLastSubmission_preserves (t : ℕ) (e : LBEntry) :
    (updateLastSubmission t e).team_id = e.team_id ∧
    (updateLastSubmission t e).team_name = e.team_name ∧
    (updateLastSubmission t e).level_2_score = e.level_2_score ∧
    (updateLastSubmission t e).level_3_score = e.level_3_score ∧
    (updateLastSubmission t e).level_4_score = e.level_4_score ∧
    (updateLastSubmission t e).cumulative_score = e.cumulative_score := by
  unfold updateLastSubmission
  rcases e.last_submission_at with - | cur <;> simp
  split_ifs <;> simp

theorem updateLBEntry_team_id (sub : TaskSubmission) (row : TaskSubmissionScore)
    (e : LBEntry) : (updateLBEntry sub row e).team_id = e.team_id := by
  unfold updateLBEntry
  rw [(updateLastSubmission_preserves _ _).1, (addLevelScore_preserves _ _ _).1]

theorem updateLBEntry_team_name (sub : TaskSubmission)
    (row : TaskSubmissionScore) (e : LBEntry) :
    (updateLBEntry sub row e).team_name = e.team_name := by
  unfold updateLBEntry
  rw [(updateLastSubmission_preserves _ _).2.1, (addLevelScore_preserves _ _ _).2.1]

theorem updateLBEntry_levels (sub : TaskSubmission) (row : TaskSubmissionScore)
    (e : LBEntry) :
    (updateLBEntry sub row e).level_2_score =
      (if sub.level = 2 then e.level_2_score + row.weighted_total
        else e.level_2_score) ∧
    (updateLBEntry sub row e).level_3_score =
      (if sub.level = 3 then e.level_3_score + row.weighted_total
        else e.level_3_score) ∧
    (updateLBEntry sub row e).level_4_score =
      (if sub.level = 4 then e.level_4_score + row.weighted_total
        else e.level_4_score) := by
  unfold updateLBEntry
  refine ⟨?_, ?_, ?_⟩
  · rw [(updateLastSubmission_preserves _ _).2.2.1,
      (addLevelScore_levels _ _ _).1]
  · rw [(updateLastSubmission_preserves _ _).2.2.2.1,
      (addLevelScore_levels _ _ _).2.1]
  · rw [(updateLastSubmission_preserves _ _).2.2.2.2.1,
      (addLevelScore_levels _ _ _).2.2]

theorem levelContrib_nil (subs : List TaskSubmission) (t l : ℕ) :
    levelContrib subs [] t l = 0 := by
  simp [levelContrib]

theorem levelContrib_cons (subs : List TaskSubmission)
    (r : TaskSubmissionScore) (rest : List TaskSubmissionScore) (t l : ℕ) :
    levelContrib subs (r :: rest) t l =
      (if contribPredB subs r t l then r.weighted_total else 0) +
        levelContrib subs rest t l := by
  by_cases hp : contribPredB subs r t l <;>
    simp [levelContrib, List.filter_cons, hp]

theorem applyFinalScore_mem (subs : List TaskSubmission) (acc : List LBEntry)
    (r : TaskSubmissionScore) :
    ∀ b ∈ applyFinalScore subs acc r, ∃ e0, e0 ∈ acc ∧
      b.team_id = e0.team_id ∧ b.team_name = e0.team_name ∧
      b.level_2_score = e0.level_2_score +
        (if contribPredB subs r e0.team_id 2 then r.weighted_total else 0) ∧
      b.level_3_score = e0.level_3_score +
        (if contribPredB subs r e0.team_id 3 then r.weighted_total else 0) ∧
      b.level_4_score = e0.level_4_score +
        (if contribPredB subs r e0.team_id 4 then r.weighted_total else 0) := by
  intro b hb
  unfold applyFinalScore at hb
  cases hf : subs.find? (fun s => s.id = r.task_submission_id) with
  | none =>
    rw [hf] at hb
    exact ⟨b, hb, rfl, rfl, by simp [contribPredB, hf],
      by simp [contribPredB, hf], by simp [contribPredB, hf]⟩
  | some s =>
    rw [hf] at hb
    simp only [] at hb
    by_cases h0 : s.level = 0
    · rw [if_pos h0] at hb
      refine ⟨b, hb, rfl, rfl, ?_, ?_, ?_⟩ <;> simp [contribPredB, hf, h0]
    · rw [if_neg h0] at hb
      obtain ⟨x, hx, rfl⟩ := List.mem_map.mp hb
      by_cases ht : x.team_id = s.team_id
      · rw [if_pos ht]
        refine ⟨x, hx, updateLBEntry_team_id _ _ _,
          updateLBEntry_team_name _ _ _, ?_, ?_, ?_⟩
        · rw [(updateLBEntry_levels _ _ _).1]
          have : contribPredB subs r x.team_id 2 = decide (s.level = 2) := by
            simp [contribPredB, hf, ht]
          rw [this]
          by_cases hl : s.level = 2 <;> simp [hl]
        · rw [(updateLBEntry_levels _ _ _).2.1]
          have : contribPredB subs r x.team_id 3 = decide (s.level = 3) := by
            simp [contribPredB, hf, ht]
          rw [this]
          by_cases hl : s.level = 3 <;> simp [hl]
        · rw [(updateLBEntry_levels _ _ _).2.2]
          have : contribPredB subs r x.team_id 4 = decide (s.level = 4) := by
            simp [contribPredB, hf, ht]
          rw [this]
          by_cases hl : s.level = 4 <;> simp [hl]
      · rw [if_neg ht]
        have ht2 : ¬ (s.team_id = x.team_id) := fun hh => ht hh.symm
        refine ⟨x, hx, rfl, rfl, ?_, ?_, ?_⟩ <;>
          simp [contribPredB, hf, ht2]

theorem foldl_applyFinalScore_mem (subs : List TaskSubmission)
    (rows : List TaskSubmissionScore) :
    ∀ (acc : List LBEntry), ∀ b ∈ rows.foldl (applyFinalScore subs) acc,
      ∃ e0, e0 ∈ acc ∧
        b.team_id = e0.team_id ∧ b.team_name = e0.team_name ∧
        b.level_2_score = e0.level_2_score + levelContrib subs rows e0.team_id 2 ∧
        b.level_3_score = e0.level_3_score + levelContrib subs rows e0.team_id 3 ∧
        b.level_4_score = e0.level_4_score + levelContrib subs rows e0.team_id 4 := by
  induction rows with
  | nil =>
    intro acc b hb
    exact ⟨b, hb, rfl, rfl, by simp [levelContrib_nil],
      by simp [levelContrib_nil], by simp [levelContrib_nil]⟩
  | cons r rest ih =>
    intro acc b hb
    obtain ⟨e1, he1, hteam, hname, h2, h3, h4⟩ :=
      ih (applyFinalScore subs acc r) b hb
    obtain ⟨e0, he0, gteam, gname, g2, g3, g4⟩ :=
      applyFinalScore_mem subs acc r e1 he1
    refine ⟨e0, he0, hteam.trans gteam, hname.trans gname, ?_, ?_, ?_⟩
    · rw [h2, gteam, g2, levelContrib_cons]; ring
    · rw [h3, gteam, g3, levelContrib_cons]; ring
    · rw [h4, gteam, g4, levelContrib_cons]; ring

theorem mem_addRanks (i : ℕ) (l : List LBEntry) :
    ∀ b ∈ addRanks i l, ∃ a ∈ l,
      b.team_id = a.team_id ∧ b.team_name = a.team_name ∧
      b.level_2_score = a.level_2_score ∧
      b.level_3_score = a.level_3_score ∧
      b.level_4_score = a.level_4_score ∧
      b.cumulative_score = a.cumulative_score ∧
      b.last_submission_at = a.last_submission_at := by
  induction l generalizing i with
  | nil => intro b hb; simp [addRanks] at hb
  | cons e es ih =>
    intro b hb
    rcases List.mem_cons.mp hb with rfl | hb2
    · exact ⟨e, List.mem_cons_self _ _, rfl, rfl, rfl, rfl, rfl, rfl, rfl⟩
    · obtain ⟨a, ha, hrest⟩ := ih (i + 1) b hb2
      exact ⟨a, List.mem_cons_of_mem _ ha, hrest⟩

theorem code_level_score_eq_contrib (db : DB) (t l : ℕ) :
    code_level_score db t l =
      levelContrib db.task_submissions
        (db.task_submission_scores.filter (fun r => r.is_final)) t l := by
  unfold code_level_score levelContrib
  rw [List.filter_filter]
  congr 1
  congr 1
  apply List.filter_congr
  intro r _
  simp [contribPredB, Bool.and_comm]

-- ===========================================================
-- Theorems for claim C2
-- ===========================================================

/-- C2, counterexample: one level-2 submission of team 7 with two
finalized judge scores 80 and 60 — the leaderboard's level-2 score is
their sum 140, while the spec's per-submission mean of finalized judges
yields 70; appeals are never consulted. -/
theorem C2_level_score_counterexample :
    ((calculate_leaderboard dbTwoJudges 1).find? (fun e => e.team_id = 7)).map
      (fun e => e.level_2_score) = some 140 ∧
    spec_level_score dbTwoJudges 7 2 = 70 ∧
    (140 : ℚ) ≠ 70 := by
  refine ⟨?_, ?_, by norm_num⟩
  · norm_num [calculate_leaderboard, dbTwoJudges, baseDB, fixSubmission,
      fixTask, fixCompetition, fixTeam, fixCriterionA, fixCriterionB,
      applyFinalScore, updateLBEntry, updateLastSubmission, addLevelScore,
      initLBEntry, sortByLt, insertByLt, addRanks, List.find?, List.filter]
  · norm_num [spec_level_score, dbTwoJudges, baseDB, fixSubmission, fixTask,
      fixCompetition, fixTeam, fixCriterionA, fixCriterionB, List.find?,
      List.filter]
    exact List.cons_ne_nil _ _

/-- C2, amended: every leaderboard entry's level score is the plain sum
of weighted_total over all finalized judge-score rows joined to that
team's submissions of the level — judges are not averaged and accepted
appeals do not override anything — and cumulative_score is the sum of
the level 2, 3 and 4 scores. -/
theorem C2_level_scores_amended (db : DB) (competition_id : ℕ) :
    ∀ e ∈ calculate_leaderboard db competition_id,
      e.level_2_score = code_level_score db e.team_id 2 ∧
      e.level_3_score = code_level_score db e.team_id 3 ∧
      e.level_4_score = code_level_score db e.team_id 4 ∧
      e.cumulative_score =
        e.level_2_score + e.level_3_score + e.level_4_score := by
  intro e he
  simp only [calculate_leaderboard] at he
  obtain ⟨a, ha, ht, hn, h2, h3, h4, hc, hts⟩ := mem_addRanks 0 _ e he
  have ha2 := (sortByLt_perm rankLt _).subset ha
  obtain ⟨s0, hs0, rfl⟩ := List.mem_map.mp ha2
  obtain ⟨e0, he0, k0, k1, k2, k3, k4⟩ :=
    foldl_applyFinalScore_mem db.task_submissions
      (db.task_submission_scores.filter (fun r => r.is_final)) _ s0 hs0
  obtain ⟨tm, htm, rfl⟩ := List.mem_map.mp he0
  have hteam : e.team_id = tm.id := by rw [ht]; exact k0
  refine ⟨?_, ?_, ?_, ?_⟩
  · rw [h2, hteam, code_level_score_eq_contrib]
    have : s0.level_2_score = 0 + levelContrib db.task_submissions
        (db.task_submission_scores.filter (fun r => r.is_final)) tm.id 2 := by
      rw [k2]; rfl
    rw [show ({ s0 with cumulative_score := s0.level_2_score +
        s0.level_3_score + s0.level_4_score } : LBEntry).level_2_score =
      s0.level_2_score from rfl, this, zero_add]
  · rw [h3, hteam, code_level_score_eq_contrib]
    have : s0.level_3_score = 0 + levelContrib db.task_submissions
        (db.task_submission_scores.filter (fun r => r.is_final)) tm.id 3 := by
      rw [k3]; rfl
    rw [show ({ s0 with cumulative_score := s0.level_2_score +
        s0.level_3_score + s0.level_4_score } : LBEntry).level_3_score =
      s0.level_3_score from rfl, this, zero_add]
  · rw [h4, hteam, code_level_score_eq_contrib]
    have : s0.level_4_score = 0 + levelContrib db.task_submissions
        (db.task_submission_scores.filter (fun r => r.is_final)) tm.id 4 := by
      rw [k4]; rfl
    rw [show ({ s0 with cumulative_score := s0.level_2_score +
        s0.level_3_score + s0.level_4_score } : LBEntry).level_4_score =
      s0.level_4_score from rfl, this, zero_add]
  · rw [hc, h2, h3, h4]

-- ===========================================================
-- Helper lemmas: team-id preservation, rank assignment, ordering shape
-- ===========================================================

theorem applyFinalScore_team_ids (subs : List TaskSubmission)
    (acc : List LBEntry) (r : TaskSubmissionScore) :
    (applyFinalScore subs acc r).map (fun e => e.team_id) =
      acc.map (fun e => e.team_id) := by
  unfold applyFinalScore
  cases hf : subs.find? (fun s => s.id = r.task_submission_id) with
  | none => rfl
  | some s =>
    by_cases h0 : s.level = 0
    · simp [h0]
    · simp only [h0, if_neg, if_false, List.map_map]
      apply List.map_congr_left
      intro e _
      by_cases ht : e.team_id = s.team_id <;>
        simp [ht, updateLBEntry_team_id]

theorem foldl_applyFinalScore_team_ids (subs : List TaskSubmission)
    (rows : List TaskSubmissionScore) (acc : List LBEntry) :
    (rows.foldl (applyFinalScore subs) acc).map (fun e => e.team_id) =
      acc.map (fun e => e.team_id) := by
  induction rows generalizing acc with
  | nil => rfl
  | cons r rest ih => rw [List.foldl_cons, ih, applyFinalScore_team_ids]

theorem addRanks_map_team_id (i : ℕ) (l : List LBEntry) :
    (addRanks i l).map (fun e => e.team_id) = l.map (fun e => e.team_id) := by
  induction l generalizing i with
  | nil => rfl
  | cons e es ih => simp [addRanks, ih]

theorem addRanks_length (i : ℕ) (l : List LBEntry) :
    (addRanks i l).length = l.length := by
  induction l generalizing i with
  | nil => rfl
  | cons e es ih => simp [addRanks, ih]

theorem addRanks_get_rank (l : List LBEntry) :
    ∀ (i j : ℕ) (h : j < (addRanks i l).length),
      ((addRanks i l).get ⟨j, h⟩).rank = i + j + 1 := by
  induction l with
  | nil => intro i j h; simp [addRanks] at h
  | cons e es ih =>
    intro i j h
    cases j with
    | zero => rfl
    | succ j2 =>
      have h2 : j2 < (addRanks (i + 1) es).length := by
        simpa [addRanks] using h
      have := ih (i + 1) j2 h2
      simp only [addRanks, List.get_cons_succ]
      rw [this]
      omega

theorem rankedBefore_iff_rankLt (x y : LBEntry) :
    rankedBefore x y ↔ rankLt y x = false := by
  unfold rankedBefore tsLeB
  rw [rankLt_eq_false_iff]
  constructor
  · rintro (h1 | ⟨h2, h3⟩)
    · refine ⟨fun hh => ?_, fun heq => ?_⟩
      · exact absurd hh (by linarith)
      · exfalso; rw [heq] at h1; exact lt_irrefl _ h1
    · refine ⟨fun hh => ?_, fun _ => ?_⟩
      · rw [h2] at hh; exact lt_irrefl _ hh
      · simpa using h3
  · rintro ⟨h1, h2⟩
    rcases lt_trichotomy y.cumulative_score x.cumulative_score with hh | hh | hh
    · exact Or.inl hh
    · refine Or.inr ⟨hh.symm, ?_⟩
      simpa using h2 hh
    · exact absurd hh h1

theorem rankedBefore_congr (a a' b b' : LBEntry)
    (h1 : a.cumulative_score = a'.cumulative_score)
    (h2 : a.last_submission_at = a'.last_submission_at)
    (h3 : b.cumulative_score = b'.cumulative_score)
    (h4 : b.last_submission_at = b'.last_submission_at) :
    rankedBefore a b ↔ rankedBefore a' b' := by
  unfold rankedBefore
  rw [h1, h2, h3, h4]

theorem addRanks_pairwise (l : List LBEntry) :
    ∀ i, l.Pairwise rankedBefore → (addRanks i l).Pairwise rankedBefore := by
  induction l with
  | nil => intro i _; simp [addRanks]
  | cons e es ih =>
    intro i h
    rcases List.pairwise_cons.mp h with ⟨he, hes⟩
    refine List.Pairwise.cons ?_ (ih (i + 1) hes)
    intro b hb
    obtain ⟨a, ha, hfields⟩ := mem_addRanks (i + 1) es b hb
    exact (rankedBefore_congr _ _ _ _ rfl rfl hfields.2.2.2.2.2.1
      hfields.2.2.2.2.2.2).mpr ((rankedBefore_congr _ _ _ _ rfl rfl rfl
        rfl).mp (he a ha))

theorem applyFinalScore_untouched (subs : List TaskSubmission)
    (acc : List LBEntry) (r : TaskSubmissionScore) (t : ℕ)
    (hno : ∀ s ∈ subs, s.team_id ≠ t) :
    ∀ b ∈ applyFinalScore subs acc r, b.team_id = t → b ∈ acc := by
  intro b hb hbt
  unfold applyFinalScore at hb
  cases hf : subs.find? (fun s => s.id = r.task_submission_id) with
  | none => rw [hf] at hb; exact hb
  | some s =>
    rw [hf] at hb
    simp only [] at hb
    by_cases h0 : s.level = 0
    · rw [if_pos h0] at hb; exact hb
    · rw [if_neg h0] at hb
      obtain ⟨x, hx, rfl⟩ := List.mem_map.mp hb
      have hs : s ∈ subs := List.mem_of_find?_eq_some hf
      have hst : s.team_id ≠ t := hno s hs
      by_cases ht : x.team_id = s.team_id
      · exfalso
        rw [if_pos ht, updateLBEntry_team_id] at hbt
        exact hst (ht ▸ hbt)
      · rw [if_neg ht]
        exact hx

theorem foldl_applyFinalScore_untouched (subs : List TaskSubmission)
    (rows : List TaskSubmissionScore) (t : ℕ)
    (hno : ∀ s ∈ subs, s.team_id ≠ t) :
    ∀ (acc : List LBEntry), ∀ b ∈ rows.foldl (applyFinalScore subs) acc,
      b.team_id = t → b ∈ acc := by
  induction rows with
  | nil => intro acc b hb _; exact hb
  | cons r rest ih =>
    intro acc b hb hbt
    exact applyFinalScore_untouched subs acc r t hno b
      (ih (applyFinalScore subs acc r) b hb hbt) hbt

end AIWebsite

namespace AIWebsite

-- ===========================================================
-- Theorems for claim C8
-- ===========================================================

/-- C8: the computed leaderboard contains exactly the competition's
teams; rows are ordered by cumulative score descending with ties broken
by earlier last submission and missing timestamps last; ranks are dense
by position (1, 2, 3, ...); a team with no submissions keeps
cumulative_score 0 and no timestamp, and every entry with
non-positive score sits after every entry with positive score. -/
theorem C8_ranking_order (db : DB) (competition_id : ℕ) :
    ((calculate_leaderboard db competition_id).map (fun e => e.team_id)).Perm
      ((db.teams.filter (fun t => t.competition_id = competition_id)).map
        (fun t => t.id)) ∧
    (calculate_leaderboard db competition_id).Pairwise rankedBefore ∧
    (∀ (i : ℕ) (h : i < (calculate_leaderboard db competition_id).length),
      ((calculate_leaderboard db competition_id).get ⟨i, h⟩).rank = i + 1) ∧
    (∀ t ∈ db.teams.filter (fun t => t.competition_id = competition_id),
      (∀ s ∈ db.task_submissions, s.team_id ≠ t.id) →
      ∀ e ∈ calculate_leaderboard db competition_id, e.team_id = t.id →
        e.cumulative_score = 0 ∧ e.last_submission_at = none) ∧
    (∀ (i j : ℕ) (hi : i < (calculate_leaderboard db competition_id).length)
      (hj : j < (calculate_leaderboard db competition_id).length),
      ((calculate_leaderboard db competition_id).get ⟨i, hi⟩).cumulative_score ≤ 0 →
      0 < ((calculate_leaderboard db competition_id).get ⟨j, hj⟩).cumulative_score →
      j < i) := by
  have hpair : (calculate_leaderboard db competition_id).Pairwise
      rankedBefore := by
    simp only [calculate_leaderboard]
    apply addRanks_pairwise _ 0
    exact (sortByLt_pairwise rankLt rankLt_asymm rankLt_negtrans _).imp
      (fun h => (rankedBefore_iff_rankLt _ _).mpr h)
  refine ⟨?_, hpair, ?_, ?_, ?_⟩
  · simp only [calculate_leaderboard]
    rw [addRanks_map_team_id]
    have h1 := (sortByLt_perm rankLt
      (((db.task_submission_scores.filter (fun r => r.is_final)).foldl
        (applyFinalScore db.task_submissions)
        ((db.teams.filter (fun t => t.competition_id = competition_id)).map
          initLBEntry)).map (fun e =>
            { e with cumulative_score := e.level_2_score + e.level_3_score +
                e.level_4_score }))).map (fun e => e.team_id)
    refine h1.trans ?_
    rw [List.map_map]
    have h2 : (((db.task_submission_scores.filter (fun r => r.is_final)).foldl
        (applyFinalScore db.task_submissions)
        ((db.teams.filter (fun t => t.competition_id = competition_id)).map
          initLBEntry)).map ((fun e => e.team_id) ∘ (fun e =>
            ({ e with cumulative_score := e.level_2_score + e.level_3_score +
                e.level_4_score } : LBEntry)))) =
        (((db.task_submission_scores.filter (fun r => r.is_final)).foldl
        (applyFinalScore db.task_submissions)
        ((db.teams.filter (fun t => t.competition_id = competition_id)).map
          initLBEntry)).map (fun e => e.team_id)) := rfl
    rw [h2, foldl_applyFinalScore_team_ids, List.map_map]
    exact List.Perm.refl _
  · intro i h
    simp only [calculate_leaderboard] at h ⊢
    simpa using addRanks_get_rank _ 0 i h
  · intro t htm hno e he heq
    simp only [calculate_leaderboard] at he
    obtain ⟨a, ha, ht, hn, h2, h3, h4, hc, hts⟩ := mem_addRanks 0 _ e he
    have ha2 := (sortByLt_perm rankLt _).subset ha
    obtain ⟨s0, hs0, rfl⟩ := List.mem_map.mp ha2
    have hteam : s0.team_id = t.id := by rw [ht] at heq; exact heq
    have hb := foldl_applyFinalScore_untouched db.task_submissions _ t.id hno
      _ s0 hs0 hteam
    obtain ⟨tm2, htm2, rfl⟩ := List.mem_map.mp hb
    constructor
    · rw [hc]; simp [initLBEntry]
    · rw [hts]; simp [initLBEntry]
  · intro i j hi hj hle hpos
    by_contra hcon
    push_neg at hcon
    have hij : i < j := by
      rcases Nat.lt_or_ge i j with h | h
      · exact h
      · exfalso
        have hij2 : i = j := le_antisymm hcon h
        subst hij2
        have hsame : ((calculate_leaderboard db competition_id).get ⟨i, hj⟩) =
            ((calculate_leaderboard db competition_id).get ⟨i, hi⟩) := rfl
        rw [hsame] at hpos
        linarith
    have := (List.pairwise_iff_get.mp hpair) ⟨i, hi⟩ ⟨j, hj⟩ hij
    rcases this with hlt | ⟨heq2, -⟩
    · linarith
    · linarith

/-- Witness for C2_level_scores_amended: on the two-judge database the
leaderboard entry of team 7 carries level-2 score 140, the sum of the
finalized weighted totals 80 and 60. -/
theorem C2_level_scores_amended_witness :
    code_level_score dbTwoJudges 7 2 = 140 := by
  have hout : calculate_leaderboard dbTwoJudges 1 =
      [{ team_id := 7, team_name := "T", level_2_score := 140
         level_3_score := 0, level_4_score := 0, cumulative_score := 140
         last_submission_at := some 5, rank := 1 }] := by
    norm_num [calculate_leaderboard, dbTwoJudges, baseDB, fixSubmission,
      fixTask, fixCompetition, fixTeam, fixCriterionA, fixCriterionB,
      applyFinalScore, updateLBEntry, updateLastSubmission, addLevelScore,
      initLBEntry, sortByLt, insertByLt, addRanks, List.find?, List.filter]
  have hmem :
      ({ team_id := 7, team_name := "T", level_2_score := 140
         level_3_score := 0, level_4_score := 0, cumulative_score := 140
         last_submission_at := some 5, rank := 1 } : LBEntry) ∈
        calculate_leaderboard dbTwoJudges 1 := by
    rw [hout]
    exact List.mem_singleton.mpr rfl
  exact ((C2_level_scores_amended dbTwoJudges 1 _ hmem).1).symm

/-- Witness for C8_ranking_order: with team 7 scoring 140 and the
submission-less team 8, the leaderboard lists both teams, is ordered,
and team 8's row keeps cumulative score 0 with no timestamp. -/
theorem C8_ranking_order_witness :
    ((calculate_leaderboard dbTwoTeams 1).map (fun e => e.team_id)).Perm
      ((dbTwoTeams.teams.filter (fun t => t.competition_id = 1)).map
        (fun t => t.id)) ∧
    (calculate_leaderboard dbTwoTeams 1).Pairwise rankedBefore ∧
    ({ team_id := 8, team_name := "U", level_2_score := 0, level_3_score := 0
       level_4_score := 0, cumulative_score := 0, last_submission_at := none
       rank := 2 } : LBEntry) ∈ calculate_leaderboard dbTwoTeams 1 ∧
    ({ team_id := 8, team_name := "U", level_2_score := 0, level_3_score := 0
       level_4_score := 0, cumulative_score := 0, last_submission_at := none
       rank := 2 } : LBEntry).cumulative_score = 0 := by
  have hout : calculate_leaderboard dbTwoTeams 1 =
      [{ team_id := 7, team_name := "T", level_2_score := 140
         level_3_score := 0, level_4_score := 0, cumulative_score := 140
         last_submission_at := some 5, rank := 1 },
       { team_id := 8, team_name := "U", level_2_score := 0
         level_3_score := 0, level_4_score := 0, cumulative_score := 0
         last_submission_at := none, rank := 2 }] := by
    norm_num [calculate_leaderboard, dbTwoTeams, dbTwoJudges, baseDB,
      fixSubmission, fixTask, fixCompetition, fixTeam, fixTeam8,
      applyFinalScore, updateLBEntry, updateLastSubmission, addLevelScore,
      initLBEntry, sortByLt, insertByLt, addRanks, rankLt, tsLtB,
      List.find?, List.filter]
  have h := C8_ranking_order dbTwoTeams 1
  have hmem8 :
      ({ team_id := 8, team_name := "U", level_2_score := 0
         level_3_score := 0, level_4_score := 0, cumulative_score := 0
         last_submission_at := none, rank := 2 } : LBEntry) ∈
        calculate_leaderboard dbTwoTeams 1 := by
    rw [hout]
    simp
  have hteam8 : fixTeam8 ∈ dbTwoTeams.teams.filter
      (fun t => t.competition_id = 1) := by
    norm_num [dbTwoTeams, dbTwoJudges, baseDB, fixTeam, fixTeam8, List.filter]
  have hnosub : ∀ s ∈ dbTwoTeams.task_submissions, s.team_id ≠ fixTeam8.id := by
    intro s hs
    norm_num [dbTwoTeams, dbTwoJudges, baseDB] at hs
    rw [hs]
    norm_num [fixSubmission, fixTeam8]
  have hc0 := (h.2.2.2.1 fixTeam8 hteam8 hnosub _ hmem8 rfl).1
  exact ⟨h.1, h.2.1, hmem8, hc0⟩

-- ===========================================================
-- Helper lemmas: upsert key counts (snapshot rows)
-- ===========================================================

theorem filter_length_upsertBy_self {α : Type} (key : α → Bool) (new : α)
    (l : List α) (hnew : key new = true)
    (hle : (l.filter key).length ≤ 1) :
    ((upsertBy key new l).filter key).length = 1 := by
  induction l with
  | nil => simp [upsertBy, hnew]
  | cons x xs ih =>
    by_cases hx : key x
    · rw [show upsertBy key new (x :: xs) = new :: xs from by
        simp [upsertBy, hx]]
      have hxs : (xs.filter key).length = 0 := by
        rw [List.filter_cons_of_pos hx] at hle
        simpa using hle
      simp [List.filter_cons, hnew, hxs]
    · rw [show upsertBy key new (x :: xs) = x :: upsertBy key new xs from by
        simp [upsertBy, hx]]
      rw [List.filter_cons_of_neg hx] at hle ⊢
      exact ih hle

theorem filter_length_upsertBy_other {α : Type} (key q : α → Bool) (new : α)
    (l : List α) (hnew : q new = false)
    (hdis : ∀ x, key x = true → q x = false) :
    ((upsertBy key new l).filter q).length = (l.filter q).length := by
  induction l with
  | nil => simp [upsertBy, hnew]
  | cons x xs ih =>
    by_cases hx : key x
    · rw [show upsertBy key new (x :: xs) = new :: xs from by
        simp [upsertBy, hx]]
      rw [List.filter_cons_of_neg (by simp [hnew]),
        List.filter_cons_of_neg (by simp [hdis x hx])]
    · rw [show upsertBy key new (x :: xs) = x :: upsertBy key new xs from by
        simp [upsertBy, hx]]
      by_cases hq : q x
      · rw [List.filter_cons_of_pos hq, List.filter_cons_of_pos hq]
        simpa using ih
      · rw [List.filter_cons_of_neg hq, List.filter_cons_of_neg hq]
        exact ih

/-- The per-(competition, team) key count in the snapshot table. -/
def snapKeyCount (snaps : List LeaderboardSnapshot) (c t : ℕ) : ℕ :=
  (snaps.filter (fun r => r.competition_id = c ∧ r.team_id = t)).length

theorem publish_fold_keeps_inv (competition_id : ℕ) (entries : List LBEntry) :
    ∀ (snaps : List LeaderboardSnapshot),
      (∀ c t, snapKeyCount snaps c t ≤ 1) →
      (∀ c t, snapKeyCount
        (entries.foldl (fun acc e =>
          upsertBy (fun r => r.competition_id = competition_id ∧
            r.team_id = e.team_id) (snapshotRowOf competition_id e) acc)
          snaps) c t ≤ 1) := by
  induction entries with
  | nil => intro snaps h c t; exact h c t
  | cons e rest ih =>
    intro snaps h
    apply ih
    intro c t
    by_cases hk : c = competition_id ∧ t = e.team_id
    · obtain ⟨rfl, rfl⟩ := hk
      unfold snapKeyCount
      rw [filter_length_upsertBy_self _ _ _ (by simp [snapshotRowOf])
        (h _ _)]
    · unfold snapKeyCount
      rw [filter_length_upsertBy_other _ _ _ _ ?hnew ?hdis]
      · exact h c t
      case hnew =>
        simp only [snapshotRowOf, decide_eq_false_iff_not]
        intro ⟨h1, h2⟩
        exact hk ⟨h1.symm, h2.symm⟩
      case hdis =>
        intro x hx
        simp only [decide_eq_true_eq] at hx
        simp only [decide_eq_false_iff_not]
        intro ⟨h1, h2⟩
        exact hk ⟨hx.1 ▸ h1.symm ▸ rfl, hx.2 ▸ h2.symm ▸ rfl⟩

theorem publish_fold_keeps_one (competition_id c t : ℕ)
    (entries : List LBEntry) :
    ∀ (snaps : List LeaderboardSnapshot),
      snapKeyCount snaps c t = 1 →
      (∀ c2 t2, snapKeyCount snaps c2 t2 ≤ 1) →
      snapKeyCount
        (entries.foldl (fun acc e =>
          upsertBy (fun r => r.competition_id = competition_id ∧
            r.team_id = e.team_id) (snapshotRowOf competition_id e) acc)
          snaps) c t = 1 := by
  induction entries with
  | nil => intro snaps h1 _; exact h1
  | cons e rest ih =>
    intro snaps h1 hle
    apply ih
    · by_cases hk : c = competition_id ∧ t = e.team_id
      · obtain ⟨rfl, rfl⟩ := hk
        unfold snapKeyCount
        rw [filter_length_upsertBy_self _ _ _ (by simp [snapshotRowOf])
          (hle _ _)]
      · unfold snapKeyCount
        rw [filter_length_upsertBy_other _ _ _ _ ?hnew ?hdis]
        · exact h1
        case hnew =>
          simp only [snapshotRowOf, decide_eq_false_iff_not]
          intro ⟨ha, hb⟩
          exact hk ⟨ha.symm, hb.symm⟩
        case hdis =>
          intro x hx
          simp only [decide_eq_true_eq] at hx
          simp only [decide_eq_false_iff_not]
          intro ⟨ha, hb⟩
          exact hk ⟨hx.1 ▸ ha.symm ▸ rfl, hx.2 ▸ hb.symm ▸ rfl⟩
    · intro c2 t2
      by_cases hk : c2 = competition_id ∧ t2 = e.team_id
      · obtain ⟨rfl, rfl⟩ := hk
        unfold snapKeyCount
        rw [filter_length_upsertBy_self _ _ _ (by simp [snapshotRowOf])
          (hle _ _)]
      · unfold snapKeyCount
        rw [filter_length_upsertBy_other _ _ _ _ ?hnew ?hdis]
        · exact hle c2 t2
        case hnew =>
          simp only [snapshotRowOf, decide_eq_false_iff_not]
          intro ⟨ha, hb⟩
          exact hk ⟨ha.symm, hb.symm⟩
        case hdis =>
          intro x hx
          simp only [decide_eq_true_eq] at hx
          simp only [decide_eq_false_iff_not]
          intro ⟨ha, hb⟩
          exact hk ⟨hx.1 ▸ ha.symm ▸ rfl, hx.2 ▸ hb.symm ▸ rfl⟩

theorem upsert_snap_inv (competition_id : ℕ) (e : LBEntry)
    (snaps : List LeaderboardSnapshot)
    (hle : ∀ c t, snapKeyCount snaps c t ≤ 1) :
    ∀ c t, snapKeyCount
      (upsertBy (fun r => r.competition_id = competition_id ∧
        r.team_id = e.team_id) (snapshotRowOf competition_id e) snaps) c t ≤ 1 := by
  intro c t
  by_cases hk : c = competition_id ∧ t = e.team_id
  · obtain ⟨rfl, rfl⟩ := hk
    unfold snapKeyCount
    rw [filter_length_upsertBy_self _ _ _ (by simp [snapshotRowOf]) (hle _ _)]
  · unfold snapKeyCount
    rw [filter_length_upsertBy_other _ _ _ _ ?hnew ?hdis]
    · exact hle c t
    case hnew =>
      simp only [snapshotRowOf, decide_eq_false_iff_not]
      intro ⟨ha, hb⟩
      exact hk ⟨ha.symm, hb.symm⟩
    case hdis =>
      intro x hx
      simp only [decide_eq_true_eq] at hx
      simp only [decide_eq_false_iff_not]
      intro ⟨ha, hb⟩
      exact hk ⟨hx.1 ▸ ha.symm ▸ rfl, hx.2 ▸ hb.symm ▸ rfl⟩

theorem publish_fold_mem_one (competition_id : ℕ) (entries : List LBEntry) :
    ∀ (snaps : List LeaderboardSnapshot),
      (∀ c t, snapKeyCount snaps c t ≤ 1) →
      ∀ e ∈ entries, snapKeyCount
        (entries.foldl (fun acc e2 =>
          upsertBy (fun r => r.competition_id = competition_id ∧
            r.team_id = e2.team_id) (snapshotRowOf competition_id e2) acc)
          snaps) competition_id e.team_id = 1 := by
  induction entries with
  | nil => intro snaps _ e he; simp at he
  | cons e2 rest ih =>
    intro snaps hle e he
    rw [List.foldl_cons]
    rcases List.mem_cons.mp he with rfl | he2
    · apply publish_fold_keeps_one
      · unfold snapKeyCount
        rw [filter_length_upsertBy_self _ _ _ (by simp [snapshotRowOf])
          (hle _ _)]
      · exact upsert_snap_inv competition_id e snaps hle
    · exact ih _ (upsert_snap_inv competition_id e2 snaps hle) e he2

theorem calculate_leaderboard_team_ids_perm (db : DB) (competition_id : ℕ) :
    ((calculate_leaderboard db competition_id).map (fun e => e.team_id)).Perm
      ((db.teams.filter (fun t => t.competition_id = competition_id)).map
        (fun t => t.id)) := by
  simp only [calculate_leaderboard]
  rw [addRanks_map_team_id]
  have h1 := (sortByLt_perm rankLt
    (((db.task_submission_scores.filter (fun r => r.is_final)).foldl
      (applyFinalScore db.task_submissions)
      ((db.teams.filter (fun t => t.competition_id = competition_id)).map
        initLBEntry)).map (fun e =>
          { e with cumulative_score := e.level_2_score + e.level_3_score +
              e.level_4_score }))).map (fun e => e.team_id)
  refine h1.trans ?_
  rw [List.map_map]
  have h2 : (((db.task_submission_scores.filter (fun r => r.is_final)).foldl
      (applyFinalScore db.task_submissions)
      ((db.teams.filter (fun t => t.competition_id = competition_id)).map
        initLBEntry)).map ((fun e => e.team_id) ∘ (fun e =>
          ({ e with cumulative_score := e.level_2_score + e.level_3_score +
              e.level_4_score } : LBEntry)))) =
      (((db.task_submission_scores.filter (fun r => r.is_final)).foldl
      (applyFinalScore db.task_submissions)
      ((db.teams.filter (fun t => t.competition_id = competition_id)).map
        initLBEntry)).map (fun e => e.team_id)) := rfl
  rw [h2, foldl_applyFinalScore_team_ids, List.map_map]
  exact List.Perm.refl _

end AIWebsite

namespace AIWebsite

-- ===========================================================
-- Theorems for claim C6
-- ===========================================================

/-- C6, counterexample: publishing a competition with no teams does not
fail — there is no PreconditionFailed check; the call succeeds with an
empty ranking and still flips results_published to true. -/
theorem C6_publish_counterexample :
    dbNoTeams.teams = [] ∧
    (publish_competition_results dbNoTeams 1).2 = .ok [] ∧
    ((publish_competition_results dbNoTeams 1).1.competitions.find?
      (fun c => c.id = 1)).map (fun c => c.results_published) = some true := by
  refine ⟨rfl, ?_, ?_⟩ <;>
    norm_num [publish_competition_results, calculate_leaderboard, dbNoTeams,
      baseDB, fixCompetition, applyFinalScore, initLBEntry, sortByLt,
      insertByLt, addRanks, snapshotRowOf, List.find?, List.filter]

/-- C6, amended: publish_results never fails — even with no teams it
succeeds (returning the live rankings); it leaves exactly one snapshot
row per (competition, team) key for every team of the competition
(replacing any prior row for that key), and sets results_published =
true on the competition row. -/
theorem C6_publish_amended (db : DB) (competition_id : ℕ)
    (hkeys : ∀ c t, snapKeyCount db.leaderboard_snapshots c t ≤ 1) :
    ((publish_competition_results db competition_id).2 =
      .ok (calculate_leaderboard db competition_id)) ∧
    (∀ t ∈ db.teams.filter (fun tm => tm.competition_id = competition_id),
      snapKeyCount
        (publish_competition_results db competition_id).1.leaderboard_snapshots
        competition_id t.id = 1) ∧
    (∀ c ∈ (publish_competition_results db competition_id).1.competitions,
      c.id = competition_id → c.results_published = true) := by
  refine ⟨rfl, ?_, ?_⟩
  · intro t ht
    have hperm := calculate_leaderboard_team_ids_perm db competition_id
    have hmem : t.id ∈ (calculate_leaderboard db competition_id).map
        (fun e => e.team_id) :=
      hperm.mem_iff.mpr (List.mem_map_of_mem _ ht)
    obtain ⟨e, he, hid⟩ := List.mem_map.mp hmem
    have := publish_fold_mem_one competition_id
      (calculate_leaderboard db competition_id) db.leaderboard_snapshots
      hkeys e he
    rw [hid] at this
    exact this
  · intro c hc hcid
    have hproj : (publish_competition_results db competition_id).1.competitions =
        db.competitions.map (fun c => if c.id = competition_id then
          { c with results_published := true } else c) := rfl
    rw [hproj] at hc
    obtain ⟨c0, hc0, rfl⟩ := List.mem_map.mp hc
    by_cases h : c0.id = competition_id
    · simp [h]
    · rw [if_neg h] at hcid ⊢
      exact absurd hcid h

/-- Witness for C6_publish_amended: publishing the base database (empty
snapshot table, one team) leaves exactly one snapshot row for
(competition 1, team 7) and succeeds. -/
theorem C6_publish_amended_witness :
    (publish_competition_results baseDB 1).2 =
      .ok (calculate_leaderboard baseDB 1) ∧
    snapKeyCount
      (publish_competition_results baseDB 1).1.leaderboard_snapshots 1 7 = 1 := by
  have hkeys : ∀ c t, snapKeyCount baseDB.leaderboard_snapshots c t ≤ 1 := by
    intro c t
    simp [snapKeyCount, baseDB]
  have h := C6_publish_amended baseDB 1 hkeys
  have hteam : fixTeam ∈ baseDB.teams.filter (fun tm => tm.competition_id = 1) := by
    norm_num [baseDB, fixTeam, List.filter]
  exact ⟨h.1, h.2.1 fixTeam hteam⟩

-- ===========================================================
-- Helper lemmas: operations never touch teams, competitions,
-- team_members or the snapshot table (except publish)
-- ===========================================================

theorem submit_judge_score_frame (db : DB) (sid jid : ℕ)
    (payload : JudgeScoreSubmit) (now : ℕ) :
    ((submit_judge_score db sid jid payload now).1).teams = db.teams ∧
    ((submit_judge_score db sid jid payload now).1).competitions =
      db.competitions ∧
    ((submit_judge_score db sid jid payload now).1).leaderboard_snapshots =
      db.leaderboard_snapshots ∧
    ((submit_judge_score db sid jid payload now).1).team_members =
      db.team_members ∧
    ((submit_judge_score db sid jid payload now).1).task_submissions =
      db.task_submissions := by
  rw [submit_judge_score]
  simp only []
  repeat' split
  all_goals exact ⟨rfl, rfl, rfl, rfl, rfl⟩

theorem submit_task_file_frame (db : DB) (tid uid : ℕ) (fn fe : String)
    (fs : ℕ) (fh : String) (dd : Option ℕ) (now : ℕ) :
    ((submit_task_file db tid uid fn fe fs fh dd now).1).teams = db.teams ∧
    ((submit_task_file db tid uid fn fe fs fh dd now).1).competitions =
      db.competitions ∧
    ((submit_task_file db tid uid fn fe fs fh dd now).1).leaderboard_snapshots =
      db.leaderboard_snapshots ∧
    ((submit_task_file db tid uid fn fe fs fh dd now).1).team_members =
      db.team_members := by
  rw [submit_task_file]
  simp only []
  repeat' split
  all_goals exact ⟨rfl, rfl, rfl, rfl⟩

theorem lock_task_submission_frame (db : DB) (sid : ℕ) :
    ((lock_task_submission db sid).1).teams = db.teams ∧
    ((lock_task_submission db sid).1).competitions = db.competitions ∧
    ((lock_task_submission db sid).1).leaderboard_snapshots =
      db.leaderboard_snapshots ∧
    ((lock_task_submission db sid).1).team_members = db.team_members := by
  rw [lock_task_submission]
  split
  all_goals exact ⟨rfl, rfl, rfl, rfl⟩

theorem create_score_appeal_frame (db : DB) (sid uid : ℕ) (reason : String) :
    ((create_score_appeal db sid uid reason).1).teams = db.teams ∧
    ((create_score_appeal db sid uid reason).1).competitions =
      db.competitions ∧
    ((create_score_appeal db sid uid reason).1).leaderboard_snapshots =
      db.leaderboard_snapshots ∧
    ((create_score_appeal db sid uid reason).1).team_members =
      db.team_members := by
  rw [create_score_appeal]
  simp only []
  repeat' split
  all_goals exact ⟨rfl, rfl, rfl, rfl⟩

theorem review_score_appeal_frame (db : DB) (aid : ℕ) (st nt : String)
    (adj : Option ℚ) (rid now : ℕ) :
    ((review_score_appeal db aid st nt adj rid now).1).teams = db.teams ∧
    ((review_score_appeal db aid st nt adj rid now).1).competitions =
      db.competitions ∧
    ((review_score_appeal db aid st nt adj rid now).1).leaderboard_snapshots =
      db.leaderboard_snapshots ∧
    ((review_score_appeal db aid st nt adj rid now).1).team_members =
      db.team_members := by
  exact ⟨rfl, rfl, rfl, rfl⟩

theorem Op.apply_frame (o : Op) (db : DB) :
    (o.apply db).teams = db.teams ∧
    (o.apply db).competitions = db.competitions ∧
    (o.apply db).leaderboard_snapshots = db.leaderboard_snapshots ∧
    (o.apply db).team_members = db.team_members := by
  cases o with
  | score sid jid payload now =>
    obtain ⟨h1, h2, h3, h4, -⟩ := submit_judge_score_frame db sid jid payload now
    exact ⟨h1, h2, h3, h4⟩
  | file tid uid fn fe fs fh dd now =>
    exact submit_task_file_frame db tid uid fn fe fs fh dd now
  | lockSubmission sid => exact lock_task_submission_frame db sid
  | appeal sid uid reason => exact create_score_appeal_frame db sid uid reason
  | review aid st nt adj rid now =>
    exact review_score_appeal_frame db aid st nt adj rid now

theorem runOps_frame (ops : List Op) (db : DB) :
    (runOps db ops).teams = db.teams ∧
    (runOps db ops).competitions = db.competitions ∧
    (runOps db ops).leaderboard_snapshots = db.leaderboard_snapshots ∧
    (runOps db ops).team_members = db.team_members := by
  induction ops generalizing db with
  | nil => exact ⟨rfl, rfl, rfl, rfl⟩
  | cons o rest ih =>
    obtain ⟨h1, h2, h3, h4⟩ := Op.apply_frame o db
    obtain ⟨g1, g2, g3, g4⟩ := ih (o.apply db)
    exact ⟨g1.trans h1, g2.trans h2, g3.trans h3, g4.trans h4⟩

theorem mem_upsertBy_self {α : Type} (key : α → Bool) (new : α) (l : List α) :
    new ∈ upsertBy key new l := by
  induction l with
  | nil => simp [upsertBy]
  | cons x xs ih =>
    by_cases hx : key x <;> simp [upsertBy, hx]
    exact Or.inr ih

theorem publish_fold_contains (competition_id : ℕ) (entries : List LBEntry) :
    ∀ (snaps : List LeaderboardSnapshot), entries ≠ [] →
      ∃ r ∈ entries.foldl (fun acc e =>
        upsertBy (fun r => r.competition_id = competition_id ∧
          r.team_id = e.team_id) (snapshotRowOf competition_id e) acc) snaps,
        r.competition_id = competition_id := by
  induction entries with
  | nil => intro snaps h; exact absurd rfl h
  | cons e rest ih =>
    intro snaps _
    rw [List.foldl_cons]
    cases rest with
    | nil =>
      exact ⟨snapshotRowOf competition_id e, mem_upsertBy_self _ _ _, rfl⟩
    | cons e2 rest2 =>
      exact ih _ (by simp)

theorem applyFinalScore_nil (subs : List TaskSubmission)
    (r : TaskSubmissionScore) : applyFinalScore subs [] r = [] := by
  unfold applyFinalScore
  cases hf : subs.find? (fun s => s.id = r.task_submission_id) with
  | none => rfl
  | some s => by_cases h0 : s.level = 0 <;> simp [h0]

theorem foldl_applyFinalScore_nil (subs : List TaskSubmission)
    (rows : List TaskSubmissionScore) :
    rows.foldl (applyFinalScore subs) [] = [] := by
  induction rows with
  | nil => rfl
  | cons r rest ih => rw [List.foldl_cons, applyFinalScore_nil]; exact ih

theorem calculate_leaderboard_no_teams (db : DB) (competition_id : ℕ)
    (h : db.teams.filter (fun t => t.competition_id = competition_id) = []) :
    calculate_leaderboard db competition_id = [] := by
  simp only [calculate_leaderboard, h]
  rw [show (([] : List Team).map initLBEntry) = [] from rfl,
    foldl_applyFinalScore_nil]
  rfl

theorem find?_comp_publish (l : List Competition) (competition_id : ℕ) :
    (l.map (fun c => if c.id = competition_id then
      { c with results_published := true } else c)).find?
      (fun c => c.id = competition_id) =
    (l.find? (fun c => c.id = competition_id)).map
      (fun c => if c.id = competition_id then
        { c with results_published := true } else c) := by
  induction l with
  | nil => rfl
  | cons x xs ih =>
    by_cases hx : x.id = competition_id
    · rw [List.map_cons, List.find?_cons_of_pos _ (by simp [hx]),
        List.find?_cons_of_pos _ (by simp [hx])]
      rfl
    · rw [List.map_cons, List.find?_cons_of_neg _ (by simp [hx]),
        List.find?_cons_of_neg _ (by simp [hx])]
      exact ih

theorem frozenRows_congr (dbx db1 : DB) (competition_id : ℕ)
    (h : dbx.leaderboard_snapshots = db1.leaderboard_snapshots) :
    frozenRows dbx competition_id = frozenRows db1 competition_id := by
  unfold frozenRows
  rw [h]

theorem get_leaderboard_frozen (dbx db1 : DB) (competition_id : ℕ)
    (role : String) (c1 : Competition)
    (hcomps : dbx.competitions = db1.competitions)
    (hsnaps : dbx.leaderboard_snapshots = db1.leaderboard_snapshots)
    (hteams : dbx.teams = db1.teams)
    (hfind : db1.competitions.find? (fun c => c.id = competition_id) = some c1)
    (hpub : c1.results_published = true)
    (hempty_teams : db1.leaderboard_snapshots.filter
        (fun r => r.competition_id = competition_id) = [] →
      db1.teams.filter (fun t => t.competition_id = competition_id) = []) :
    get_competition_leaderboard dbx competition_id role =
      .ok (frozenRows db1 competition_id) := by
  unfold get_competition_leaderboard
  rw [hcomps, hfind]
  simp only []
  rw [if_neg (by simp [hpub]), hsnaps]
  by_cases he : (sortByLt snapLt (db1.leaderboard_snapshots.filter
      (fun r => r.competition_id = competition_id))).isEmpty
  · rw [if_pos he]
    have hsort0 : sortByLt snapLt (db1.leaderboard_snapshots.filter
        (fun r => r.competition_id = competition_id)) = [] := by
      simpa using he
    have hfilter0 : db1.leaderboard_snapshots.filter
        (fun r => r.competition_id = competition_id) = [] := by
      have hlen := (sortByLt_perm snapLt (db1.leaderboard_snapshots.filter
        (fun r => r.competition_id = competition_id))).length_eq
      rw [hsort0] at hlen
      exact List.eq_nil_of_length_eq_zero hlen.symm
    have ht0 := hempty_teams hfilter0
    rw [calculate_leaderboard_no_teams dbx competition_id
      (by rw [hteams]; exact ht0)]
    unfold frozenRows
    rw [hfilter0]
    rfl
  · rw [if_neg he]
    unfold frozenRows
    rfl

-- ===========================================================
-- Theorems for claim C5
-- ===========================================================

/-- C5: after publish_results succeeds for a competition, every
subsequent get_leaderboard read — after any sequence of core operations
(judge scores final or not, file submissions, locks, appeals, reviews) —
returns exactly the snapshot rows frozen at publish time, not a live
recomputation, until publish_results runs again. -/
theorem C5_snapshot_frozen (db0 : DB) (competition_id : ℕ) (ops : List Op)
    (role : String) (c0 : Competition)
    (hfind0 : db0.competitions.find? (fun c => c.id = competition_id) =
      some c0) :
    get_competition_leaderboard
        (runOps (publish_competition_results db0 competition_id).1 ops)
        competition_id role =
      .ok (frozenRows (publish_competition_results db0 competition_id).1
        competition_id) ∧
    get_competition_leaderboard
        (publish_competition_results db0 competition_id).1 competition_id
        role =
      .ok (frozenRows (publish_competition_results db0 competition_id).1
        competition_id) := by
  have hc0id : c0.id = competition_id := by
    have := List.find?_some hfind0
    simpa using this
  have hfind1 : ((publish_competition_results db0 competition_id).1).competitions.find?
      (fun c => c.id = competition_id) =
      some { c0 with results_published := true } := by
    have hproj : ((publish_competition_results db0 competition_id).1).competitions =
        db0.competitions.map (fun c => if c.id = competition_id then
          { c with results_published := true } else c) := rfl
    rw [hproj, find?_comp_publish, hfind0]
    simp [hc0id]
  have hempty : (publish_competition_results db0 competition_id).1.leaderboard_snapshots.filter
      (fun r => r.competition_id = competition_id) = [] →
      (publish_competition_results db0 competition_id).1.teams.filter
        (fun t => t.competition_id = competition_id) = [] := by
    intro hfil
    have hteamsproj : ((publish_competition_results db0 competition_id).1).teams =
        db0.teams := rfl
    rw [hteamsproj]
    by_contra hne
    have hlen := (calculate_leaderboard_team_ids_perm db0 competition_id).length_eq
    simp only [List.length_map] at hlen
    have hrank_ne : calculate_leaderboard db0 competition_id ≠ [] := by
      intro h0
      rw [h0] at hlen
      exact hne (List.eq_nil_of_length_eq_zero hlen.symm)
    obtain ⟨r, hr, hrc⟩ := publish_fold_contains competition_id
      (calculate_leaderboard db0 competition_id) db0.leaderboard_snapshots
      hrank_ne
    have hmem : r ∈ (publish_competition_results db0 competition_id).1.leaderboard_snapshots.filter
        (fun r => r.competition_id = competition_id) :=
      List.mem_filter.mpr ⟨hr, by simp [hrc]⟩
    rw [hfil] at hmem
    exact absurd hmem (List.not_mem_nil r)
  refine ⟨?_, ?_⟩
  · obtain ⟨ht, hc, hs, -⟩ :=
      runOps_frame ops ((publish_competition_results db0 competition_id).1)
    exact get_leaderboard_frozen _ _ competition_id role _ hc hs ht hfind1
      rfl hempty
  · exact get_leaderboard_frozen _ _ competition_id role _ rfl rfl rfl hfind1
      rfl hempty

/-- Witness for C5_snapshot_frozen: after publishing the base
competition, a later finalized judge score does not change what the
leaderboard read returns. -/
theorem C5_snapshot_frozen_witness :
    get_competition_leaderboard
        (runOps (publish_competition_results baseDB 1).1
          [Op.score 100 9
            { scores := [], overall_feedback := "", is_final := true } 60])
        1 "admin" =
      .ok (frozenRows (publish_competition_results baseDB 1).1 1) := by
  have hfind : baseDB.competitions.find? (fun c => c.id = 1) =
      some fixCompetition := rfl
  exact (C5_snapshot_frozen baseDB 1
    [Op.score 100 9
      { scores := [], overall_feedback := "", is_final := true } 60]
    "admin" fixCompetition hfind).1

-- ===========================================================
-- Helper lemmas: the score loop on a valid prefix, and on a bad entry
-- ===========================================================

theorem call_weighted_sum_cons (criteria : List ScoringCriterion) (level : ℕ)
    (e : ScoreEntryInput) (l : List ScoreEntryInput) :
    call_weighted_sum criteria level (e :: l) =
      (match criteria.find? (fun c => c.id = e.criterion_id) with
        | some c => if c.applies_to_levels.contains level then
            e.score * (c.weight / 100) else 0
        | none => 0) + call_weighted_sum criteria level l := by
  simp [call_weighted_sum]

theorem scoreLoop_prefix (criteria : List ScoringCriterion)
    (level sid jid : ℕ) (pre : List ScoreEntryInput) :
    ∀ (rest : List ScoreEntryInput) (w0 : ℚ) (entries : List TaskScoreEntry),
      (∀ e ∈ pre, entryOk criteria level e) →
      scoreLoop criteria level sid jid (pre ++ rest) w0 entries =
        scoreLoop criteria level sid jid rest
          (w0 + call_weighted_sum criteria level pre)
          ((pre.filter (entryApplicableB criteria level)).foldl
            (entryUpsert sid jid) entries) := by
  induction pre with
  | nil =>
    intro rest w0 entries _
    simp [call_weighted_sum]
  | cons e pre2 ih =>
    intro rest w0 entries hok
    obtain ⟨c, hc, hok_e⟩ := hok e (List.mem_cons_self _ _)
    have hok2 : ∀ e2 ∈ pre2, entryOk criteria level e2 :=
      fun e2 he2 => hok e2 (List.mem_cons_of_mem _ he2)
    rw [List.cons_append]
    simp only [scoreLoop]
    rw [hc]
    simp only []
    by_cases happ : c.applies_to_levels.contains level
    · rw [happ, if_neg (by simp)]
      have hrange : ¬ (e.score < 0 ∨ e.score > 100) := by
        rcases hok_e with h1 | h2
        · exact absurd happ h1
        · rintro (h | h)
          · exact h2.1 h
          · exact h2.2 h
      rw [if_neg hrange, ih rest _ _ hok2]
      have hmem2 : level ∈ c.applies_to_levels := by simpa using happ
      have happl : entryApplicableB criteria level e = true := by
        simp [entryApplicableB, hc, hmem2]
      rw [call_weighted_sum_cons, hc]
      simp only [happ, if_true]
      rw [List.filter_cons_of_pos happl]
      rw [List.foldl_cons]
      rw [add_assoc]
      rfl
    · have happf : c.applies_to_levels.contains level = false := by
        simpa using happ
      rw [happf, if_pos rfl, ih rest _ _ hok2]
      have hmem2 : ¬ level ∈ c.applies_to_levels := by simpa using happf
      have happl : entryApplicableB criteria level e = false := by
        simp [entryApplicableB, hc, hmem2]
      rw [call_weighted_sum_cons, hc]
      simp only [happf, Bool.false_eq_true, if_false]
      rw [List.filter_cons_of_neg (by simp [happl]), zero_add]

theorem scoreLoop_bad (criteria : List ScoringCriterion) (level sid jid : ℕ)
    (bad : ScoreEntryInput) (rest : List ScoreEntryInput) (w0 : ℚ)
    (entries : List TaskScoreEntry)
    (hbad : entryBad criteria level bad) :
    ∃ err, scoreLoop criteria level sid jid (bad :: rest) w0 entries =
      (entries, .error err) := by
  rcases hbad with hnone | ⟨c, hc, hmem, hrange⟩
  · refine ⟨⟨400, "Invalid criterion"⟩, ?_⟩
    simp only [scoreLoop]
    rw [hnone]
  · refine ⟨⟨400, "Score must be between 0-100"⟩, ?_⟩
    simp only [scoreLoop]
    rw [hc]
    simp only []
    rw [hmem, if_neg (by simp), if_pos hrange]

-- ===========================================================
-- Theorems for claim C10
-- ===========================================================

/-- C10: when submit_score fails validation on one entry of the list
(unknown criterion, or an applicable score outside [0, 100]), the
ScoreEntry upserts already performed for the earlier applicable entries
of the same call remain persisted, while the JudgeScore table is left
unchanged: the operation is not atomic on error. -/
theorem C10_partial_entry_writes (db : DB) (sid jid : ℕ)
    (payload : JudgeScoreSubmit) (now : ℕ) (sub : TaskSubmission)
    (a : JudgeAssignmentRow)
    (hsub : db.task_submissions.find? (fun s => s.id = sid) = some sub)
    (ha : db.judge_assignments.find? (fun a2 =>
      a2.competition_id = sub.competition_id ∧ a2.judge_id = jid ∧
      a2.is_active = true) = some a)
    (pre : List ScoreEntryInput) (bad : ScoreEntryInput)
    (rest : List ScoreEntryInput)
    (hsplit : payload.scores = pre ++ bad :: rest)
    (hok : ∀ e ∈ pre, entryOk
      (db.scoring_criteria.filter (fun c => c.is_active)) sub.level e)
    (hbad : entryBad
      (db.scoring_criteria.filter (fun c => c.is_active)) sub.level bad) :
    ∃ err,
      (submit_judge_score db sid jid payload now).2 = .error err ∧
      (submit_judge_score db sid jid payload now).1.task_score_entries =
        (pre.filter (entryApplicableB
          (db.scoring_criteria.filter (fun c => c.is_active)) sub.level)).foldl
          (entryUpsert sid jid) db.task_score_entries ∧
      (submit_judge_score db sid jid payload now).1.task_submission_scores =
        db.task_submission_scores := by
  obtain ⟨err, herr⟩ := scoreLoop_bad
    (db.scoring_criteria.filter (fun c => c.is_active)) sub.level sid jid
    bad rest (0 + call_weighted_sum
      (db.scoring_criteria.filter (fun c => c.is_active)) sub.level pre)
    ((pre.filter (entryApplicableB
      (db.scoring_criteria.filter (fun c => c.is_active)) sub.level)).foldl
      (entryUpsert sid jid) db.task_score_entries) hbad
  refine ⟨err, ?_, ?_, ?_⟩ <;>
    rw [submit_judge_score, hsub] <;>
    simp only [] <;>
    rw [ha] <;>
    simp only [] <;>
    rw [hsplit, scoreLoop_prefix _ _ _ _ pre (bad :: rest) 0
      db.task_score_entries hok, herr]

/-- Witness for C10_partial_entry_writes: scoring criterion A at 80 and
criterion B at 150 fails, keeps the criterion-A ScoreEntry row, and
leaves the JudgeScore table empty. -/
theorem C10_partial_entry_writes_witness :
    (submit_judge_score baseDB 100 9 payloadBad 50).1.task_score_entries =
      [{ task_submission_id := 100, criterion_id := 1, judge_id := 9
         score := 80, feedback := "" }] ∧
    (submit_judge_score baseDB 100 9 payloadBad 50).1.task_submission_scores =
      [] := by
  have hok : ∀ e ∈ [({ criterion_id := 1, score := 80, feedback := "" } :
      ScoreEntryInput)], entryOk
      (baseDB.scoring_criteria.filter (fun c => c.is_active)) fixSubmission.level e := by
    intro e he
    rw [List.mem_singleton] at he
    subst he
    exact ⟨fixCriterionA, rfl, Or.inr ⟨by norm_num, by norm_num⟩⟩
  have hbad : entryBad
      (baseDB.scoring_criteria.filter (fun c => c.is_active))
      fixSubmission.level
      { criterion_id := 2, score := 150, feedback := "" } :=
    Or.inr ⟨fixCriterionB, rfl, rfl, Or.inr (by norm_num)⟩
  obtain ⟨err, h2, h1, h0⟩ := C10_partial_entry_writes baseDB 100 9
    payloadBad 50 fixSubmission ⟨1, 9, true⟩ rfl rfl
    [{ criterion_id := 1, score := 80, feedback := "" }]
    { criterion_id := 2, score := 150, feedback := "" } [] rfl hok hbad
  refine ⟨?_, ?_⟩
  · rw [h1]
    rfl
  · rw [h0]
    rfl

-- ===========================================================
-- Helper lemmas for idempotence (claim C9)
-- ===========================================================

theorem upsertBy_eq_self {α : Type} (key : α → Bool) (new : α) (l : List α)
    (h : l.find? key = some new) : upsertBy key new l = l := by
  induction l with
  | nil => simp [List.find?] at h
  | cons x xs ih =>
    by_cases hx : key x
    · simp only [List.find?, hx] at h
      injection h with h2
      subst h2
      simp [upsertBy, hx]
    · simp only [List.find?, hx] at h
      simp [upsertBy, hx, ih h]

theorem find?_upsertBy_of_disjoint {α : Type} (key q : α → Bool) (new : α)
    (l : List α) (hnew : q new = false)
    (hdis : ∀ x, key x = true → q x = false) :
    (upsertBy key new l).find? q = l.find? q := by
  induction l with
  | nil => simp [upsertBy, List.find?, hnew]
  | cons x xs ih =>
    by_cases hx : key x
    · have hqx := hdis x hx
      simp [upsertBy, hx, List.find?, hnew, hqx]
    · by_cases hqx : q x
      · simp [upsertBy, hx, List.find?, hqx]
      · simp [upsertBy, hx, List.find?, hqx, ih]

theorem map_id_of_fresh (l : List TaskSubmission) (n : ℕ) (r : TaskSubmission)
    (h : ∀ s ∈ l, s.id ≠ n) :
    l.map (fun s => if s.id = n then r else s) = l := by
  induction l with
  | nil => rfl
  | cons x xs ih =>
    rw [List.map_cons, if_neg (h x (List.mem_cons_self _ _)),
      ih (fun s hs => h s (List.mem_cons_of_mem _ hs))]

theorem find?_append_of_none {α : Type} (p : α → Bool) (l1 l2 : List α)
    (h : l1.find? p = none) : (l1 ++ l2).find? p = l2.find? p := by
  induction l1 with
  | nil => rfl
  | cons x xs ih =>
    by_cases hx : p x
    · simp [List.find?, hx] at h
    · simp only [List.find?, hx] at h
      simp [List.find?, hx, ih h]

theorem find?_map_replace (l : List TaskSubmission)
    (key : TaskSubmission → Bool) (r s0 : TaskSubmission)
    (h : l.find? key = some s0) (hr : key r = true) :
    (l.map (fun s => if s.id = s0.id then r else s)).find? key = some r := by
  induction l with
  | nil => simp [List.find?] at h
  | cons x xs ih =>
    by_cases hx : key x
    · simp only [List.find?, hx] at h
      injection h with h2
      subst h2
      simp [List.map_cons, List.find?, hr]
    · simp only [List.find?, hx] at h
      by_cases hxi : x.id = s0.id
      · simp [List.map_cons, hxi, List.find?, hr]
      · simp only [List.map_cons, if_neg hxi]
        simp [List.find?, hx, ih h]

theorem map_replace_idem (l : List TaskSubmission) (i : ℕ) (r : TaskSubmission)
    (hr : r.id = i) :
    (l.map (fun s => if s.id = i then r else s)).map
      (fun s => if s.id = i then r else s) =
    l.map (fun s => if s.id = i then r else s) := by
  rw [List.map_map]
  apply List.map_congr_left
  intro s _
  by_cases h : s.id = i <;> simp [Function.comp, h, hr]

theorem nodup_map_split {α β : Type} (f : α → β) (pre post : List α) (e : α)
    (h : ((pre ++ e :: post).map f).Nodup) :
    (∀ x ∈ pre, f x ≠ f e) ∧ ∀ x ∈ post, f x ≠ f e := by
  rw [List.map_append, List.map_cons, List.nodup_append] at h
  obtain ⟨h1, h2, h3⟩ := h
  rw [List.nodup_cons] at h2
  constructor
  · intro x hx hfx
    exact h3 (List.mem_map_of_mem f hx) (by rw [hfx]; exact List.mem_cons_self _ _)
  · intro x hx hfx
    exact h2.1 (by rw [← hfx]; exact List.mem_map_of_mem f hx)

theorem filter_length_map_replace (l : List TaskSubmission)
    (q : TaskSubmission → Bool) (r s0 : TaskSubmission)
    (hids : (l.map (fun s => s.id)).Nodup) (hs0 : s0 ∈ l)
    (hkey : q r = q s0) :
    ((l.map (fun s => if s.id = s0.id then r else s)).filter q).length =
      (l.filter q).length := by
  induction l with
  | nil => rfl
  | cons x xs ih =>
    rw [List.map_cons, List.nodup_cons] at hids
    obtain ⟨hnotin, hnd⟩ := hids
    rcases List.mem_cons.mp hs0 with rfl | hmem
    · rw [List.map_cons, if_pos rfl]
      have hxs : xs.map (fun s => if s.id = s0.id then r else s) = xs :=
        map_id_of_fresh xs s0.id r
          (fun s hs h => hnotin (by rw [← h]; exact List.mem_map_of_mem _ hs))
      rw [hxs]
      by_cases hq : q s0
      · rw [List.filter_cons_of_pos (by rw [hkey]; exact hq),
          List.filter_cons_of_pos hq]
        rfl
      · rw [List.filter_cons_of_neg (by rw [hkey]; simpa using hq),
          List.filter_cons_of_neg hq]
    · have hxid : x.id ≠ s0.id :=
        fun h => hnotin (by rw [h]; exact List.mem_map_of_mem _ hmem)
      rw [List.map_cons, if_neg hxid]
      by_cases hq : q x
      · rw [List.filter_cons_of_pos hq, List.filter_cons_of_pos hq]
        simp [ih hnd hmem]
      · rw [List.filter_cons_of_neg hq, List.filter_cons_of_neg hq]
        exact ih hnd hmem

theorem scoreLoop_ok_all (criteria : List ScoringCriterion)
    (level sid jid : ℕ) (scores : List ScoreEntryInput) (w0 : ℚ)
    (entries es : List TaskScoreEntry) (w : ℚ)
    (h : scoreLoop criteria level sid jid scores w0 entries = (es, .ok w)) :
    ∀ e ∈ scores, entryOk criteria level e := by
  induction scores generalizing w0 entries with
  | nil => intro e he; simp at he
  | cons e rest ih =>
    intro e2 he2
    simp only [scoreLoop] at h
    split at h
    · simp at h
    · next c hc =>
      split at h
      · next hskip =>
        rcases List.mem_cons.mp he2 with rfl | hmem
        · exact ⟨c, hc, Or.inl (by simpa using hskip)⟩
        · exact ih _ _ h e2 hmem
      · next hnoskip =>
        split at h
        · simp at h
        · next hr =>
          rcases List.mem_cons.mp he2 with rfl | hmem
          · exact ⟨c, hc,
              Or.inr ⟨fun hlt => hr (Or.inl hlt), fun hgt => hr (Or.inr hgt)⟩⟩
          · exact ih _ _ h e2 hmem

theorem find?_foldl_entryUpsert (sid jid cid : ℕ)
    (L : List ScoreEntryInput) :
    ∀ X : List TaskScoreEntry, (∀ e ∈ L, e.criterion_id ≠ cid) →
      ((L.foldl (entryUpsert sid jid) X).find? (fun r =>
          r.task_submission_id = sid ∧ r.criterion_id = cid ∧
          r.judge_id = jid)) =
        X.find? (fun r => r.task_submission_id = sid ∧ r.criterion_id = cid ∧
          r.judge_id = jid) := by
  induction L with
  | nil => intro X _; rfl
  | cons e L2 ih =>
    intro X hne
    rw [List.foldl_cons,
      ih (entryUpsert sid jid X e)
        (fun x hx => hne x (List.mem_cons_of_mem _ hx))]
    simp only [entryUpsert]
    refine find?_upsertBy_of_disjoint _ _ _ _ ?_ ?_
    · have hne2 := hne e (List.mem_cons_self _ _)
      simp [hne2]
    · intro x hx
      simp only [decide_eq_true_eq] at hx
      have hxc : x.criterion_id ≠ cid := by
        rw [hx.2.1]
        exact hne e (List.mem_cons_self _ _)
      simp [hxc]

theorem filter_length_foldl_entryUpsert_other (sid jid cid : ℕ)
    (L : List ScoreEntryInput) :
    ∀ X : List TaskScoreEntry, (∀ e ∈ L, e.criterion_id ≠ cid) →
      ((L.foldl (entryUpsert sid jid) X).filter (fun r =>
          r.task_submission_id = sid ∧ r.criterion_id = cid ∧
          r.judge_id = jid)).length =
        (X.filter (fun r => r.task_submission_id = sid ∧
          r.criterion_id = cid ∧ r.judge_id = jid)).length := by
  induction L with
  | nil => intro X _; rfl
  | cons e L2 ih =>
    intro X hne
    rw [List.foldl_cons,
      ih (entryUpsert sid jid X e)
        (fun x hx => hne x (List.mem_cons_of_mem _ hx))]
    simp only [entryUpsert]
    refine filter_length_upsertBy_other _ _ _ _ ?_ ?_
    · have hne2 := hne e (List.mem_cons_self _ _)
      simp [hne2]
    · intro x hx
      simp only [decide_eq_true_eq] at hx
      have hxc : x.criterion_id ≠ cid := by
        rw [hx.2.1]
        exact hne e (List.mem_cons_self _ _)
      simp [hxc]

theorem foldl_entryUpsert_idem (sid jid : ℕ) (L : List ScoreEntryInput) :
    ∀ es : List TaskScoreEntry,
      ((L.map (fun e => e.criterion_id)).Nodup) →
      L.foldl (entryUpsert sid jid) (L.foldl (entryUpsert sid jid) es) =
        L.foldl (entryUpsert sid jid) es := by
  induction L with
  | nil => intro es _; rfl
  | cons e L2 ih =>
    intro es hnd
    rw [List.map_cons, List.nodup_cons] at hnd
    obtain ⟨hnotin, hnd2⟩ := hnd
    have hne : ∀ x ∈ L2, x.criterion_id ≠ e.criterion_id := by
      intro x hx h
      exact hnotin (by rw [← h]; exact List.mem_map_of_mem _ hx)
    rw [List.foldl_cons, List.foldl_cons]
    have hself : (entryUpsert sid jid es e).find? (fun r =>
        r.task_submission_id = sid ∧ r.criterion_id = e.criterion_id ∧
        r.judge_id = jid) =
        some (⟨sid, e.criterion_id, jid, e.score, e.feedback⟩ :
          TaskScoreEntry) :=
      find?_upsertBy_self _ _ _ (by simp)
    have hpres := find?_foldl_entryUpsert sid jid e.criterion_id L2
      (entryUpsert sid jid es e) hne
    rw [hself] at hpres
    have habs : entryUpsert sid jid
        (L2.foldl (entryUpsert sid jid) (entryUpsert sid jid es e)) e =
        L2.foldl (entryUpsert sid jid) (entryUpsert sid jid es e) :=
      upsertBy_eq_self _ _ _ hpres
    rw [habs]
    exact ih _ hnd2

/-- Idempotence of submit_judge_score: repeating a successful call with
the identical payload (no duplicate criterion ids) on the resulting
state returns the same state and total again; the JudgeScore table holds
exactly one row for the (submission, judge) key, and the ScoreEntry
table one row per (submission, criterion, judge) key of the applicable
entries, provided the initial state held at most one. -/
theorem submit_judge_score_idem (db : DB) (sid jid : ℕ)
    (payload : JudgeScoreSubmit) (now : ℕ) (db1 : DB) (wt : ℚ)
    (hnd : (payload.scores.map (fun e => e.criterion_id)).Nodup)
    (hone : (db.task_submission_scores.filter (fun r =>
      r.task_submission_id = sid ∧ r.judge_id = jid)).length ≤ 1)
    (hentry : ∀ cid : ℕ, (db.task_score_entries.filter (fun r =>
      r.task_submission_id = sid ∧ r.criterion_id = cid ∧
      r.judge_id = jid)).length ≤ 1)
    (hrun : submit_judge_score db sid jid payload now = (db1, .ok wt)) :
    submit_judge_score db1 sid jid payload now = (db1, .ok wt) ∧
    (db1.task_submission_scores.filter (fun r =>
      r.task_submission_id = sid ∧ r.judge_id = jid)).length = 1 ∧
    ∀ sub, db.task_submissions.find? (fun s => s.id = sid) = some sub →
      ∀ e ∈ payload.scores,
        entryApplicableB (db.scoring_criteria.filter (fun c => c.is_active))
          sub.level e = true →
        (db1.task_score_entries.filter (fun r =>
          r.task_submission_id = sid ∧ r.criterion_id = e.criterion_id ∧
          r.judge_id = jid)).length = 1 := by
  obtain ⟨sub, hs, hwt, hts, hcomp, htasks, hteams, htm, hsubs, hsnaps,
    happeals, hja, hcrit, hnsub, hnapp, ⟨a, ha⟩, wtf, hl1, hwtf⟩ :=
    submit_judge_score_ok_spec db sid jid payload now db1 wt hrun
  have hall : ∀ e ∈ payload.scores, entryOk
      (db.scoring_criteria.filter (fun c => c.is_active)) sub.level e :=
    scoreLoop_ok_all _ _ _ _ _ _ _ _ _ hl1
  have hndF : ((payload.scores.filter (entryApplicableB
      (db.scoring_criteria.filter (fun c => c.is_active)) sub.level)).map
      (fun e => e.criterion_id)).Nodup :=
    List.Nodup.sublist (List.Sublist.map _ (List.filter_sublist _)) hnd
  have hpre1 := scoreLoop_prefix
    (db.scoring_criteria.filter (fun c => c.is_active)) sub.level sid jid
    payload.scores [] 0 db.task_score_entries hall
  rw [List.append_nil] at hpre1
  rw [hl1] at hpre1
  simp only [scoreLoop] at hpre1
  simp only [Prod.mk.injEq, Except.ok.injEq] at hpre1
  obtain ⟨hE1, hw1⟩ := hpre1
  have hpre2 := scoreLoop_prefix
    (db.scoring_criteria.filter (fun c => c.is_active)) sub.level sid jid
    payload.scores [] 0 db1.task_score_entries hall
  rw [List.append_nil] at hpre2
  simp only [scoreLoop] at hpre2
  have hFF : (payload.scores.filter (entryApplicableB
      (db.scoring_criteria.filter (fun c => c.is_active)) sub.level)).foldl
      (entryUpsert sid jid) db1.task_score_entries =
      db1.task_score_entries := by
    rw [hE1]
    exact foldl_entryUpsert_idem sid jid _ _ hndF
  rw [hFF, ← hw1] at hpre2
  refine ⟨?_, ?_, ?_⟩
  · rw [submit_judge_score]
    rw [hsubs, hs]
    simp only []
    rw [hja, ha]
    simp only []
    rw [hcrit]
    rw [hpre2]
    simp only []
    have hwt2 : round2 wtf = wt := hwtf.symm
    rw [hwt2]
    have hup : upsertBy (fun r => r.task_submission_id = sid ∧
        r.judge_id = jid)
        { task_submission_id := sid, judge_id := jid, weighted_total := wt
          overall_feedback := payload.overall_feedback
          is_final := payload.is_final, scored_at := now }
        db1.task_submission_scores = db1.task_submission_scores := by
      rw [hts]
      exact upsertBy_eq_self _ _ _ (find?_upsertBy_self _ _ _ (by simp))
    rw [hup, ← hsubs, ← hja, ← hcrit]
  · rw [hts]
    exact filter_length_upsertBy_self _ _ _ (by simp) hone
  · intro sub2 hsub2 e he happl
    rw [hs] at hsub2
    injection hsub2 with hsub2
    subst hsub2
    rw [hE1]
    have hef : e ∈ payload.scores.filter (entryApplicableB
        (db.scoring_criteria.filter (fun c => c.is_active)) sub.level) :=
      List.mem_filter.mpr ⟨he, happl⟩
    obtain ⟨pre, post, hsplit⟩ := List.append_of_mem hef
    have hndF2 := hndF
    rw [hsplit] at hndF2
    obtain ⟨hpre_ne, hpost_ne⟩ := nodup_map_split _ pre post e hndF2
    rw [hsplit, List.foldl_append, List.foldl_cons]
    rw [filter_length_foldl_entryUpsert_other sid jid e.criterion_id post
      (entryUpsert sid jid (pre.foldl (entryUpsert sid jid)
        db.task_score_entries) e) hpost_ne]
    have hle_pre : (((pre.foldl (entryUpsert sid jid)
        db.task_score_entries)).filter (fun r =>
        r.task_submission_id = sid ∧ r.criterion_id = e.criterion_id ∧
        r.judge_id = jid)).length ≤ 1 := by
      rw [filter_length_foldl_entryUpsert_other sid jid e.criterion_id pre
        db.task_score_entries hpre_ne]
      exact hentry e.criterion_id
    exact filter_length_upsertBy_self _ _ _ (by simp) hle_pre

theorem find_user_team_congr (db1 db : DB) (competition_id user_id : ℕ)
    (h1 : db1.team_members = db.team_members) (h2 : db1.teams = db.teams) :
    find_user_team db1 competition_id user_id =
      find_user_team db competition_id user_id := by
  rw [find_user_team, find_user_team, h1, h2]

/-- Idempotence of submit_task_file: repeating a successful call with
identical arguments on the resulting state re-finds the freshly written
row, takes the update branch, and leaves the state unchanged, returning
the same row; exactly one submission row holds the (task, team) key. -/
theorem submit_task_file_idem (db : DB) (task_id user_id : ℕ)
    (file_name file_ext : String) (file_size : ℕ) (file_hash : String)
    (dd : Option ℕ) (now : ℕ) (db1 : DB) (row : TaskSubmission)
    (hfresh : ∀ s ∈ db.task_submissions, s.id ≠ db.next_submission_id)
    (hids : (db.task_submissions.map (fun s => s.id)).Nodup)
    (hone : (db.task_submissions.filter (fun s =>
      s.task_id = task_id ∧ s.team_id = row.team_id)).length ≤ 1)
    (hrun : submit_task_file db task_id user_id file_name file_ext file_size
      file_hash dd now = (db1, .ok row)) :
    submit_task_file db1 task_id user_id file_name file_ext file_size
      file_hash dd now = (db1, .ok row) ∧
    (db1.task_submissions.filter (fun s =>
      s.task_id = task_id ∧ s.team_id = row.team_id)).length = 1 := by
  rw [submit_task_file] at hrun
  split at hrun
  · simp at hrun
  · next task ht =>
    split at hrun
    · simp at hrun
    · next hact =>
      split at hrun
      · simp at hrun
      · next competition hcomp =>
        split at hrun
        · simp at hrun
        · next hlock =>
          split at hrun
          · simp at hrun
          · next hlevel =>
            split at hrun
            · simp at hrun
            · next hdl =>
              split at hrun
              · simp at hrun
              · next user_team_id htm =>
                simp only [] at hrun
                split at hrun
                · simp at hrun
                · next hlocked =>
                  split at hrun
                  · simp at hrun
                  · next hft =>
                    split at hrun
                    · simp at hrun
                    · next hsize =>
                      split at hrun
                      · next s0 hex =>
                        simp only [Prod.mk.injEq, Except.ok.injEq] at hrun
                        obtain ⟨hdb1, hrow⟩ := hrun
                        rw [hrow] at hdb1
                        have hrid : row.id = s0.id := by rw [← hrow]
                        have hrteam : row.team_id = user_team_id := by
                          rw [← hrow]
                        have hM : db1.task_submissions =
                            db.task_submissions.map
                              (fun s => if s.id = s0.id then row else s) := by
                          rw [← hdb1]
                        have hTa : db1.tasks = db.tasks := by rw [← hdb1]
                        have hCo : db1.competitions = db.competitions := by
                          rw [← hdb1]
                        have hkeyrow : ((fun s => decide (s.task_id = task_id ∧
                            s.team_id = user_team_id)) row) = true := by
                          rw [← hrow]
                          simp
                        constructor
                        · rw [submit_task_file, hTa, ht]
                          simp only []
                          rw [if_neg hact, hCo, hcomp]
                          simp only []
                          rw [if_neg hlock, if_neg hlevel, if_neg hdl]
                          rw [show find_user_team db1 task.competition_id
                              user_id = some user_team_id from by
                            rw [find_user_team_congr db1 db task.competition_id
                              user_id (by rw [← hdb1]) (by rw [← hdb1]), htm]]
                          simp only []
                          have hex2 : db1.task_submissions.find?
                              (fun s => s.task_id = task_id ∧
                                s.team_id = user_team_id) = some row := by
                            rw [hM]
                            exact find?_map_replace _ _ _ _ hex hkeyrow
                          rw [hex2]
                          rw [if_neg (show ¬ (Option.any
                              (fun s => s.status = "locked") (some row) = true)
                            from by rw [← hrow]; simp)]
                          rw [if_neg hft, if_neg hsize]
                          simp only []
                          have hr2 : (⟨row.id, task.competition_id,
                              user_team_id, task_id, task.level, file_name,
                              file_size, file_hash, user_id, now, "submitted",
                              dd⟩ : TaskSubmission) = row := by
                            rw [← hrow]
                          rw [hr2]
                          have hmap2 : db1.task_submissions.map
                              (fun s => if s.id = row.id then row else s) =
                              db1.task_submissions := by
                            rw [hM, hrid]
                            exact map_replace_idem _ _ _ hrid
                          rw [hmap2, ← hTa, ← hCo]
                        · rw [hM, hrteam]
                          have hs0mem : s0 ∈ db.task_submissions :=
                            List.mem_of_find?_eq_some hex
                          have hkeys0 := List.find?_some hex
                          rw [filter_length_map_replace db.task_submissions _
                            row s0 hids hs0mem (by
                              have h1 := hkeyrow
                              have h2 := List.find?_some hex
                              simp only [] at h1 h2
                              rw [h1, h2])]
                          have hone2 := hone
                          rw [hrteam] at hone2
                          have hmemf : s0 ∈ db.task_submissions.filter
                              (fun s => s.task_id = task_id ∧
                                s.team_id = user_team_id) :=
                            List.mem_filter.mpr ⟨hs0mem, hkeys0⟩
                          have hpos :=
                            List.length_pos.mpr (List.ne_nil_of_mem hmemf)
                          omega
                      · next hexnone =>
                        simp only [Prod.mk.injEq, Except.ok.injEq] at hrun
                        obtain ⟨hdb1, hrow⟩ := hrun
                        rw [hrow] at hdb1
                        have hrid : row.id = db.next_submission_id := by
                          rw [← hrow]
                        have hrteam : row.team_id = user_team_id := by
                          rw [← hrow]
                        have hM : db1.task_submissions =
                            db.task_submissions ++ [row] := by
                          rw [← hdb1]
                        have hTa : db1.tasks = db.tasks := by rw [← hdb1]
                        have hCo : db1.competitions = db.competitions := by
                          rw [← hdb1]
                        have hkeyrow : ((fun s => decide (s.task_id = task_id ∧
                            s.team_id = user_team_id)) row) = true := by
                          rw [← hrow]
                          simp
                        constructor
                        · rw [submit_task_file, hTa, ht]
                          simp only []
                          rw [if_neg hact, hCo, hcomp]
                          simp only []
                          rw [if_neg hlock, if_neg hlevel, if_neg hdl]
                          rw [show find_user_team db1 task.competition_id
                              user_id = some user_team_id from by
                            rw [find_user_team_congr db1 db task.competition_id
                              user_id (by rw [← hdb1]) (by rw [← hdb1]), htm]]
                          simp only []
                          have hex2 : db1.task_submissions.find?
                              (fun s => s.task_id = task_id ∧
                                s.team_id = user_team_id) = some row := by
                            rw [hM, find?_append_of_none _ _ _ hexnone]
                            simp [List.find?, hkeyrow]
                          rw [hex2]
                          rw [if_neg (show ¬ (Option.any
                              (fun s => s.status = "locked") (some row) = true)
                            from by rw [← hrow]; simp)]
                          rw [if_neg hft, if_neg hsize]
                          simp only []
                          have hr2 : (⟨row.id, task.competition_id,
                              user_team_id, task_id, task.level, file_name,
                              file_size, file_hash, user_id, now, "submitted",
                              dd⟩ : TaskSubmission) = row := by
                            rw [← hrow]
                          rw [hr2]
                          have hmap2 : db1.task_submissions.map
                              (fun s => if s.id = row.id then row else s) =
                              db1.task_submissions := by
                            rw [hM, hrid, List.map_append,
                              map_id_of_fresh _ _ _ hfresh]
                            simp [hrid]
                          rw [hmap2, ← hTa, ← hCo]
                        · rw [hM, hrteam, List.filter_append]
                          have hnil : db.task_submissions.filter
                              (fun s => s.task_id = task_id ∧
                                s.team_id = user_team_id) = [] := by
                            rw [List.filter_eq_nil_iff]
                            exact List.find?_eq_none.mp hexnone
                          rw [hnil, List.nil_append]
                          have hk := hkeyrow
                          simp only [] at hk
                          have hk2 := of_decide_eq_true hk
                          simp [List.filter_cons, hk2.1, hk2.2]

-- ===========================================================
-- Theorems for claim C9
-- ===========================================================

/-- C9: the submission and score upserts are idempotent by natural key.
Repeating a successful submit_score call with the identical payload (one
entry per criterion) on the resulting state returns exactly that state
and the same weighted_total again, and the state holds one JudgeScore
row for the (submission, judge) key and one ScoreEntry row per
(submission, criterion, judge) key of the applicable entries; likewise,
repeating a successful submit_file call with identical arguments leaves
the state unchanged, returns the same row, and exactly one submission
row holds the (task, team) key — provided the initial state had at most
one row per key, unique submission ids and a fresh next id, as any
upsert-maintained store does. -/
theorem C9_idempotent_upserts (db : DB) (sid jid : ℕ)
    (payload : JudgeScoreSubmit) (now : ℕ) (db1 : DB) (wt : ℚ)
    (db2 : DB) (task_id user_id : ℕ) (file_name file_ext : String)
    (file_size : ℕ) (file_hash : String) (dd : Option ℕ) (now2 : ℕ)
    (db3 : DB) (row : TaskSubmission)
    (hnd : (payload.scores.map (fun e => e.criterion_id)).Nodup)
    (hone : (db.task_submission_scores.filter (fun r =>
      r.task_submission_id = sid ∧ r.judge_id = jid)).length ≤ 1)
    (hentry : ∀ cid : ℕ, (db.task_score_entries.filter (fun r =>
      r.task_submission_id = sid ∧ r.criterion_id = cid ∧
      r.judge_id = jid)).length ≤ 1)
    (hrun : submit_judge_score db sid jid payload now = (db1, .ok wt))
    (hfresh : ∀ s ∈ db2.task_submissions, s.id ≠ db2.next_submission_id)
    (hids : (db2.task_submissions.map (fun s => s.id)).Nodup)
    (hone2 : (db2.task_submissions.filter (fun s =>
      s.task_id = task_id ∧ s.team_id = row.team_id)).length ≤ 1)
    (hrun2 : submit_task_file db2 task_id user_id file_name file_ext
      file_size file_hash dd now2 = (db3, .ok row)) :
    submit_judge_score db1 sid jid payload now = (db1, .ok wt) ∧
    (db1.task_submission_scores.filter (fun r =>
      r.task_submission_id = sid ∧ r.judge_id = jid)).length = 1 ∧
    (∀ sub, db.task_submissions.find? (fun s => s.id = sid) = some sub →
      ∀ e ∈ payload.scores,
        entryApplicableB (db.scoring_criteria.filter (fun c => c.is_active))
          sub.level e = true →
        (db1.task_score_entries.filter (fun r =>
          r.task_submission_id = sid ∧ r.criterion_id = e.criterion_id ∧
          r.judge_id = jid)).length = 1) ∧
    submit_task_file db3 task_id user_id file_name file_ext file_size
      file_hash dd now2 = (db3, .ok row) ∧
    (db3.task_submissions.filter (fun s =>
      s.task_id = task_id ∧ s.team_id = row.team_id)).length = 1 := by
  obtain ⟨h1, h2, h3⟩ :=
    submit_judge_score_idem db sid jid payload now db1 wt hnd hone hentry hrun
  obtain ⟨h4, h5⟩ := submit_task_file_idem db2 task_id user_id file_name
    file_ext file_size file_hash dd now2 db3 row hfresh hids hone2 hrun2
  exact ⟨h1, h2, h3, h4, h5⟩

/-- Witness for C9_idempotent_upserts: re-running the score call (judge
9, criteria at 80 and 50, total 68.00) and the file call (task 10, user
3) on their own results is a no-op returning the same outcomes. -/
theorem C9_idempotent_upserts_witness :
    submit_judge_score (submit_judge_score baseDB 100 9 payload68 50).1
        100 9 payload68 50 =
      ((submit_judge_score baseDB 100 9 payload68 50).1, .ok 68) ∧
    (((submit_judge_score baseDB 100 9 payload68 50).1.task_submission_scores.filter
        (fun r => r.task_submission_id = 100 ∧ r.judge_id = 9)).length = 1) ∧
    submit_task_file (submit_task_file baseDB 10 3 "a.pdf" "pdf" 1 "h"
        none 5).1 10 3 "a.pdf" "pdf" 1 "h" none 5 =
      ((submit_task_file baseDB 10 3 "a.pdf" "pdf" 1 "h" none 5).1,
        .ok fixSubmission) ∧
    (((submit_task_file baseDB 10 3 "a.pdf" "pdf" 1 "h"
        none 5).1.task_submissions.filter
        (fun s => s.task_id = 10 ∧
          s.team_id = fixSubmission.team_id)).length = 1) := by
  have h68 : round2 (68 : ℚ) = 68 := by
    have := round2_of_mul_eq (68 : ℚ) 6800 (by norm_num)
    rw [this]; norm_num
  have hsnd : (submit_judge_score baseDB 100 9 payload68 50).2 = .ok 68 := by
    norm_num [submit_judge_score, baseDB, fixSubmission, fixTask,
      fixCompetition, fixTeam, fixCriterionA, fixCriterionB, payload68,
      scoreLoop, upsertBy, List.find?, List.filter, h68]
  have hrun : submit_judge_score baseDB 100 9 payload68 50 =
      ((submit_judge_score baseDB 100 9 payload68 50).1, .ok 68) := by
    rw [← hsnd]
  have hsnd2 : (submit_task_file baseDB 10 3 "a.pdf" "pdf" 1 "h" none 5).2 =
      .ok fixSubmission := by rfl
  have hrun2 : submit_task_file baseDB 10 3 "a.pdf" "pdf" 1 "h" none 5 =
      ((submit_task_file baseDB 10 3 "a.pdf" "pdf" 1 "h" none 5).1,
        .ok fixSubmission) := by
    rw [← hsnd2]
  obtain ⟨h1, h2, h3, h4, h5⟩ := C9_idempotent_upserts baseDB 100 9 payload68
    50 (submit_judge_score baseDB 100 9 payload68 50).1 68
    baseDB 10 3 "a.pdf" "pdf" 1 "h" none 5
    (submit_task_file baseDB 10 3 "a.pdf" "pdf" 1 "h" none 5).1 fixSubmission
    (by decide) (by decide) (fun cid => by simp [baseDB]) hrun
    (by decide) (by decide) (by decide) hrun2
  exact ⟨h1, h2, h4, h5⟩
